import Mathlib

/-!
# Verification of the csv-match-magic reconciliation core

A shallow embedding, in Lean 4, of the reconciliation engine of the
csv-match-magic repository: the key detector, header matcher, key matcher,
formula evaluator, relationship analyzer and the reconciliation engine
itself, translated from `src/utils/csvUtils.ts`, `src/utils/formulaUtils`
(the `evaluateFormulaForRow` block of `csvUtils.ts`) and
`src/components/ReconciliationInterface.tsx`.

Modelling conventions:
* JavaScript numbers are modelled as exact rationals (`ℚ`).  `Math.round`
  and `Math.floor` become `jsRound` / `jsFloor` on `ℚ`.
* `Number(string)` coercion is `jsNumber : String → Option ℚ`; `none`
  plays the role of `NaN`.
* `eval` of a substituted arithmetic expression is `jsEval`, a
  recursive-descent parser/evaluator over `{number, +, -, *, /, (, )}`.
  A malformed expression, or a division by zero (which in the source
  produces a non-finite value that the engine's error handling degrades
  to the sentinel 0, see §4.5/§7 of the design), yields `none`.
* A JavaScript `Map` is an insertion-ordered association list (`JsMap`)
  with `set` overwriting in place, `delete` removing, and iteration in
  list order — the observable semantics of the `Map` used by
  `performReconciliation`.
* A row object (`Record<string, string>`) is the association list
  `header ↦ cell`; a missing property reads as the empty string.
-/

namespace CsvMatch

/-- `Math.round`: round half towards positive infinity. -/
def jsRound (q : ℚ) : ℤ := ⌊q + 1 / 2⌋

/-- `Math.floor`. -/
def jsFloor (q : ℚ) : ℤ := ⌊q⌋

/-- Digit list to natural number, most significant digit first. -/
def digitsToNat (ds : List Char) : ℕ :=
  ds.foldl (fun a c => 10 * a + (c.toNat - 48)) 0

/-- Parse an unsigned decimal literal (`12`, `12.`, `.5`, `12.5`) from the
front of a character list, returning the value and the remaining input. -/
def parseUnsignedDecimal (cs : List Char) : Option (ℚ × List Char) :=
  let ip := cs.takeWhile (fun c => c.isDigit)
  let r1 := cs.dropWhile (fun c => c.isDigit)
  match r1 with
  | '.' :: r2 =>
    let fp := r2.takeWhile (fun c => c.isDigit)
    let r3 := r2.dropWhile (fun c => c.isDigit)
    if ip.isEmpty && fp.isEmpty then none
    else some ((digitsToNat ip : ℚ) + (digitsToNat fp : ℚ) / (10 : ℚ) ^ fp.length, r3)
  | _ => if ip.isEmpty then none else some ((digitsToNat ip : ℚ), r1)

/-- ASCII whitespace, as trimmed by `String.prototype.trim`. -/
def isJsSpace (c : Char) : Bool :=
  c = ' ' || c = '\t' || c = '\n' || c = '\r'

/-- `String.prototype.trim`. -/
def jsTrim (s : String) : String :=
  ⟨((s.toList.dropWhile isJsSpace).reverse.dropWhile isJsSpace).reverse⟩

/-- `String.prototype.toLowerCase`. -/
def strToLower (s : String) : String :=
  ⟨s.toList.map Char.toLower⟩

/-- `String.prototype.split` on a one-character separator. -/
def splitOnChar (c : Char) : List Char → List (List Char)
  | [] => [[]]
  | x :: rest =>
    if x = c then [] :: splitOnChar c rest
    else
      match splitOnChar c rest with
      | [] => [[x]]
      | h :: t => (x :: h) :: t

/-- JavaScript `Number(string)`: trims whitespace, accepts the empty string
as `0`, otherwise an optionally signed decimal with an optional exponent;
`none` models `NaN`. -/
def jsNumber (s : String) : Option ℚ :=
  let t := jsTrim s
  if t = "" then some 0
  else
    let cs := t.toList
    let (sign, cs2) : ℚ × List Char :=
      match cs with
      | '-' :: r => (-1, r)
      | '+' :: r => (1, r)
      | _ => (1, cs)
    match parseUnsignedDecimal cs2 with
    | none => none
    | some (q, rest) =>
      match rest with
      | [] => some (sign * q)
      | e :: r2 =>
        if e = 'e' || e = 'E' then
          let (esign, r3) : ℤ × List Char :=
            match r2 with
            | '-' :: rr => (-1, rr)
            | '+' :: rr => (1, rr)
            | _ => (1, r2)
          let ds := r3.takeWhile (fun c => c.isDigit)
          let r4 := r3.dropWhile (fun c => c.isDigit)
          if ds.isEmpty || !r4.isEmpty then none
          else some (sign * q * (10 : ℚ) ^ (esign * (digitsToNat ds : ℤ)))
        else none

/-- Decimal digits of a natural number (fuel-driven). -/
def natDigitsAux : ℕ → ℕ → List Char
  | 0, _ => []
  | _ + 1, 0 => []
  | fuel + 1, n => natDigitsAux fuel (n / 10) ++ [Char.ofNat (48 + n % 10)]

/-- Decimal string of a natural number. -/
def natToDecString (n : ℕ) : String :=
  if n = 0 then "0" else ⟨natDigitsAux (n + 1) n⟩

/-- How many times `f` divides `n` (fuel-driven). -/
def countFactor : ℕ → ℕ → ℕ → ℕ
  | 0, _, _ => 0
  | fuel + 1, n, f =>
    if n ≠ 0 && f > 1 && n % f = 0 then countFactor fuel (n / f) f + 1 else 0

/-- Left-pad a digit string with zeros to length `k`. -/
def padZeros (s : String) (k : ℕ) : String :=
  ⟨List.replicate (k - s.toList.length) '0' ++ s.toList⟩

/-- JavaScript `Number.prototype.toString` on the rationals that arise from
decimal input: a terminating decimal is printed in plain decimal notation
(the form `eval` re-reads exactly); other rationals use a parenthesised
fraction fallback that cannot arise from `jsNumber` output. -/
def renderQ (q : ℚ) : String :=
  let d := q.den
  let t2 := countFactor d d 2
  let t5 := countFactor d d 5
  if 2 ^ t2 * 5 ^ t5 = d then
    let k := max t2 t5
    let m := (q.num.natAbs * 10 ^ k) / d
    let sgn := if q.num < 0 then "-" else ""
    if k = 0 then sgn ++ natToDecString m
    else sgn ++ natToDecString (m / 10 ^ k) ++ "." ++ padZeros (natToDecString (m % 10 ^ k)) k
  else "(" ++ (if q.num < 0 then "-" else "") ++ natToDecString q.num.natAbs ++ "/" ++ natToDecString d ++ ")"

/-- Does `text` start with `pat`? -/
def listStartsWith : List Char → List Char → Bool
  | [], _ => true
  | _ :: _, [] => false
  | p :: ps, c :: cs => p = c && listStartsWith ps cs

/-- Does `pat` occur as a contiguous substring of `text`?  (JavaScript
`text.includes(pat)`; the empty pattern occurs in every string.) -/
def listOccursIn (pat : List Char) : List Char → Bool
  | [] => pat.isEmpty
  | c :: rest => listStartsWith pat (c :: rest) || listOccursIn pat rest

/-- `String.prototype.includes`. -/
def jsIncludes (s sub : String) : Bool := listOccursIn sub.toList s.toList

/-- Replace every occurrence of `pat` in `text` by `repl`, left to right
and non-overlapping, with explicit fuel (one unit per consumed character,
so the recursion is structural and reduces in the kernel). -/
def jsReplaceAllAux : ℕ → List Char → List Char → List Char → List Char
  | 0, text, _, _ => text
  | fuel + 1, text, pat, repl =>
    match text, pat with
    | text, [] => repl ++ text.flatMap (fun c => c :: repl)
    | [], _ :: _ => []
    | c :: rest, p :: ps =>
      if listStartsWith (p :: ps) (c :: rest) then
        repl ++ jsReplaceAllAux fuel (rest.drop ps.length) (p :: ps) repl
      else
        c :: jsReplaceAllAux fuel rest (p :: ps) repl

/-- Replace every occurrence of `pat` in `text` by `repl` — the semantics
of `text.replace(new RegExp(pat, 'g'), repl)` for a pattern free of regex
metacharacters; the empty pattern matches at every position, as the empty
regex does. -/
def jsReplaceAll (text pat repl : List Char) : List Char :=
  jsReplaceAllAux (text.length + 1) text pat repl

/-- String-level `jsReplaceAll`. -/
def jsStringReplace (s pat repl : String) : String :=
  ⟨jsReplaceAll s.toList pat.toList repl.toList⟩

/-- Skip ASCII whitespace. -/
def skipSpaces (cs : List Char) : List Char :=
  cs.dropWhile (fun c => c = ' ' || c = '\t' || c = '\n' || c = '\r')

mutual

/-- Parse a factor: a number literal, a parenthesised expression, or a
unary-signed factor. -/
def parseFactor : ℕ → List Char → Option (ℚ × List Char)
  | 0, _ => none
  | fuel + 1, cs =>
    match skipSpaces cs with
    | '(' :: rest =>
      match parseExpr fuel rest with
      | some (q, rest2) =>
        match skipSpaces rest2 with
        | ')' :: rest3 => some (q, rest3)
        | _ => none
      | none => none
    | '-' :: rest =>
      match parseFactor fuel rest with
      | some (q, rest2) => some (-q, rest2)
      | none => none
    | '+' :: rest => parseFactor fuel rest
    | other => parseUnsignedDecimal other

/-- Parse the `* /` continuation of a term. -/
def parseTermMore : ℕ → ℚ → List Char → Option (ℚ × List Char)
  | 0, _, _ => none
  | fuel + 1, acc, cs =>
    match skipSpaces cs with
    | '*' :: rest =>
      match parseFactor fuel rest with
      | some (q, rest2) => parseTermMore fuel (acc * q) rest2
      | none => none
    | '/' :: rest =>
      match parseFactor fuel rest with
      | some (q, rest2) => if q = 0 then none else parseTermMore fuel (acc / q) rest2
      | none => none
    | _ => some (acc, cs)

/-- Parse a term: factors joined by `*` and `/`. -/
def parseTerm : ℕ → List Char → Option (ℚ × List Char)
  | 0, _ => none
  | fuel + 1, cs =>
    match parseFactor fuel cs with
    | some (q, rest) => parseTermMore fuel q rest
    | none => none

/-- Parse the `+ -` continuation of an expression. -/
def parseExprMore : ℕ → ℚ → List Char → Option (ℚ × List Char)
  | 0, _, _ => none
  | fuel + 1, acc, cs =>
    match skipSpaces cs with
    | '+' :: rest =>
      match parseTerm fuel rest with
      | some (q, rest2) => parseExprMore fuel (acc + q) rest2
      | none => none
    | '-' :: rest =>
      match parseTerm fuel rest with
      | some (q, rest2) => parseExprMore fuel (acc - q) rest2
      | none => none
    | _ => some (acc, cs)

/-- Parse an expression: terms joined by `+` and `-`. -/
def parseExpr : ℕ → List Char → Option (ℚ × List Char)
  | 0, _ => none
  | fuel + 1, cs =>
    match parseTerm fuel cs with
    | some (q, rest) => parseExprMore fuel q rest
    | none => none

end

/-- JavaScript `eval` restricted to the arithmetic expressions the formula
evaluator produces; `none` for a malformed expression or a division by
zero (the engine's catch/`isNaN` handling maps both to the 0 sentinel). -/
def jsEval (s : String) : Option ℚ :=
  let cs := s.toList
  match parseExpr (4 * cs.length + 8) cs with
  | some (q, rest) => if (skipSpaces rest).isEmpty then some q else none
  | none => none

/-- A JavaScript `number | string` value. -/
inductive JsValue
  | num (q : ℚ)
  | str (s : String)
deriving DecidableEq, Repr, Inhabited

/-- `isNaN(Number(value)) ? value : Number(value)` — the numeric-or-string
coercion of a cell. -/
def jsValueOfCell (value : String) : JsValue :=
  match jsNumber value with
  | some q => .num q
  | none => .str value

/-- `headers.indexOf(name)`: first index, `-1` when absent. -/
def jsIndexOf (headers : List String) (name : String) : ℤ :=
  match headers.indexOf? name with
  | some i => (i : ℤ)
  | none => -1

/-- `row[i]` for a possibly negative or out-of-range index, with the
`undefined` result read back as the empty string. -/
def rowGet (row : List String) (i : ℤ) : String :=
  if 0 ≤ i then ((row.get? i.toNat).getD "") else ""

/-- Read a property of a row object; a repeated header keeps the last
assignment, a missing property reads as the empty string. -/
def objGet (row : List (String × String)) (k : String) : String :=
  match (row.filter (fun p => p.1 = k)).getLast? with
  | some p => p.2
  | none => ""

/-- Build the `rowObj` of `performReconciliation`:
`headers.forEach((header, idx) => rowObj[header] = row[idx])`. -/
def mkRowObj (headers : List String) (row : List String) : List (String × String) :=
  headers.enum.map (fun p => (p.2, (row.get? p.1).getD ""))

/-! ## Header Matcher — `calculateSimilarity` (`csvUtils.ts` 430–452)

The floor-based variant used by `findBestMatches`/`generateHeaderMapping`. -/

/-- `calculateSimilarity(str1, str2)`: 100 on case-insensitive equality,
`floor(min/max * 80)` on inclusion, else the fraction of characters of
`s1` found anywhere in `s2`, scaled to a maximum of 60. -/
def calculateSimilarity (str1 str2 : String) : ℤ :=
  let s1 := strToLower str1
  let s2 := strToLower str2
  if s1 = s2 then 100
  else if jsIncludes s1 s2 || jsIncludes s2 s1 then
    jsFloor ((min s1.toList.length s2.toList.length : ℚ) /
      (max s1.toList.length s2.toList.length : ℚ) * 80)
  else
    let matchCnt := s1.toList.countP (fun c => s2.toList.contains c)
    jsFloor ((matchCnt : ℚ) / (max s1.toList.length s2.toList.length : ℚ) * 60)

/-! ## Header Matcher — `calculateStringSimilarity` (`csvUtils.ts` 246–273)

The round-based variant used by the Key Matcher `findMatchingUniqueKeys`. -/

/-- `calculateStringSimilarity(str1, str2)`: 100 on case-insensitive
equality, `round(min/max * 80)` on inclusion, else positional
character-by-character matching scaled to a maximum of 60. -/
def calculateStringSimilarity (str1 str2 : String) : ℤ :=
  let s1 := strToLower str1
  let s2 := strToLower str2
  if s1 = s2 then 100
  else if jsIncludes s1 s2 || jsIncludes s2 s1 then
    jsRound ((min s1.toList.length s2.toList.length : ℚ) /
      (max s1.toList.length s2.toList.length : ℚ) * 80)
  else if max s1.toList.length s2.toList.length = 0 then 100
  else
    let matchCount := ((s1.toList.zip s2.toList).filter (fun p => p.1 = p.2)).length
    jsRound ((matchCount : ℚ) / (max s1.toList.length s2.toList.length : ℚ) * 60)

/-! ## Key Detector — `detectUniqueKeys` (`csvUtils.ts` 149–176) -/

/-- The values of column `index` of a table. -/
def columnValues (data : List (List String)) (index : ℕ) : List String :=
  data.map (fun row => (row.get? index).getD "")

/-- `detectUniqueKeys(headers, data)`: keep a header when its text has at
least two characters, is not one of the generic names `id`/`no`/`num`/`#`
(case-insensitively), its column has no empty or blank value, and the
ratio of distinct values to rows exceeds 0.95. -/
def detectUniqueKeys (headers : List String) (data : List (List String)) : List String :=
  headers.enum.foldl (fun uniqueKeys hi =>
    let header := hi.2
    let index := hi.1
    if header.toList.length < 2 || ["id", "no", "num", "#"].contains (strToLower header) then
      uniqueKeys
    else
      let column := columnValues data index
      let hasEmptyValues := column.any (fun value => jsTrim value = "")
      if hasEmptyValues then uniqueKeys
      else if (column.dedup.length : ℚ) / (column.length : ℚ) > 95 / 100 then
        uniqueKeys ++ [header]
      else uniqueKeys) []

/-- The acceptance predicate of `detectUniqueKeys` for one
(index, header) pair: header text of at least two characters that is not
one of the generic names, a column without blank values, and a
uniqueness ratio above 0.95. -/
def acceptCol (data : List (List String)) (hi : ℕ × String) : Bool :=
  !(hi.2.toList.length < 2 || ["id", "no", "num", "#"].contains (strToLower hi.2)) &&
  !((columnValues data hi.1).any (fun value => jsTrim value = "")) &&
  decide ((((columnValues data hi.1).dedup.length : ℚ) /
    ((columnValues data hi.1).length : ℚ)) > 95 / 100)

/-! ## Key Matcher — `findMatchingUniqueKeys` (`csvUtils.ts` 179–243) -/

/-- A ranked source/target key pair. -/
structure KeyCandidate where
  sourceKey : String
  targetKey : String
  confidence : ℤ
  matchingValuesCount : ℕ
deriving DecidableEq, Repr, Inhabited

/-- The value-overlap percentage for one key pair
(`csvUtils.ts` 206–227): the number of target values present in the
source value set, over the smaller column length, times 100. -/
def keyValueMatchPercentage (sourceHeaders : List String) (sourceData : List (List String))
    (targetHeaders : List String) (targetData : List (List String))
    (sourceKey targetKey : String) : ℚ :=
  let sourceValues := columnValues sourceData (sourceHeaders.indexOf sourceKey)
  let targetValues := columnValues targetData (targetHeaders.indexOf targetKey)
  let matchingCount := targetValues.countP (fun value => sourceValues.contains value)
  (matchingCount : ℚ) / (min sourceValues.length targetValues.length : ℚ) * 100

/-- The candidate built for one `(sourceKey, targetKey)` pair
(`csvUtils.ts` 213–237). -/
def keyPairCandidate (sourceHeaders : List String) (sourceData : List (List String))
    (targetHeaders : List String) (targetData : List (List String))
    (sourceKey targetKey : String) : KeyCandidate :=
  let sourceValues := columnValues sourceData (sourceHeaders.indexOf sourceKey)
  let targetValues := columnValues targetData (targetHeaders.indexOf targetKey)
  let matchingCount := targetValues.countP (fun value => sourceValues.contains value)
  let nameSimilarity := calculateStringSimilarity sourceKey targetKey
  let matchPercentage := keyValueMatchPercentage sourceHeaders sourceData targetHeaders targetData sourceKey targetKey
  { sourceKey := sourceKey
    targetKey := targetKey
    confidence := jsRound (matchPercentage * (7 / 10) + (nameSimilarity : ℚ) * (3 / 10))
    matchingValuesCount := matchingCount }

/-- Insert a candidate into a descending-by-confidence list, before the
first strictly less confident entry (the placement a stable sort gives). -/
def insertByConfidence (x : KeyCandidate) : List KeyCandidate → List KeyCandidate
  | [] => [x]
  | y :: ys =>
    if y.confidence ≤ x.confidence then x :: y :: ys
    else y :: insertByConfidence x ys

/-- Stable sort descending by confidence (`results.sort((a, b) =>
b.confidence - a.confidence)`; JavaScript array sort is stable). -/
def sortByConfidenceDesc (l : List KeyCandidate) : List KeyCandidate :=
  l.foldr insertByConfidence []

/-- `findMatchingUniqueKeys`: cross product of the detected keys of both
sides, scored and sorted descending by confidence (stable sort). -/
def findMatchingUniqueKeys (sourceHeaders : List String) (sourceData : List (List String))
    (targetHeaders : List String) (targetData : List (List String)) : List KeyCandidate :=
  let sourceUniqueKeys := detectUniqueKeys sourceHeaders sourceData
  let targetUniqueKeys := detectUniqueKeys targetHeaders targetData
  if sourceUniqueKeys.isEmpty || targetUniqueKeys.isEmpty then []
  else
    let results := sourceUniqueKeys.foldl (fun acc sourceKey =>
      acc ++ targetUniqueKeys.map (fun targetKey =>
        keyPairCandidate sourceHeaders sourceData targetHeaders targetData sourceKey targetKey)) []
    sortByConfidenceDesc results

/-! ## Formula Evaluator — `evaluateFormulaForRow`
(the `formulaUtils` block of `csvUtils.ts`, 383–423) -/

/-- The substitution loop of `evaluateFormulaForRow` (lines 403–409): for
each column in order, every occurrence of the column name in the
expression text is replaced by the row's numeric value (0 when the cell
is not numeric) rendered back to text. -/
def substituteColumns (columns : List String) (row : List (String × String))
    (expression : String) : String :=
  columns.foldl (fun expr column =>
    let value := objGet row column
    let numericValue := (jsNumber value).getD 0
    jsStringReplace expr column (renderQ numericValue)) expression

/-- `evaluateFormulaForRow(columns, row, formula, isSource)`: 0 for no
columns; numeric-or-string passthrough for one column; for a formula
containing `=`, the side-relevant half is substituted and evaluated
(errors and `NaN` degrade to 0); otherwise the sum of the columns'
numeric values. -/
def evaluateFormulaForRow (columns : List String) (row : List (String × String))
    (formula : String) (isSource : Bool) : JsValue :=
  if columns.length = 0 then .num 0
  else if columns.length = 1 then
    jsValueOfCell (objGet row (columns.headD ""))
  else if formula.toList.contains '=' then
    let formulaParts := (splitOnChar '=' formula.toList).map (fun l => (⟨l⟩ : String))
    let relevantFormula :=
      jsTrim (if isSource then formulaParts.headD "" else (formulaParts.get? 1).getD "")
    let expression := substituteColumns columns row relevantFormula
    match jsEval expression with
    | some result => .num result
    | none => .num 0
  else
    .num (columns.foldl (fun sum col =>
      sum + ((jsNumber (objGet row col)).getD 0)) 0)

/-! ## Relationship Analyzer — `analyzeColumnRelationship`
(`csvUtils.ts` 276–381) -/

/-- The analyzer's result. -/
structure RelationshipResult where
  formula : String
  confidence : ℕ
deriving DecidableEq, Repr

/-- The target-key lookup map of `analyzeColumnRelationship`
(lines 295–301): last row wins for a repeated key; keys that are empty
or blank after trimming are skipped. -/
def targetKeyMapOf (targetData : List (List String)) (targetKeyIndex : ℤ) :
    List (String × List String) :=
  targetData.foldl (fun m row =>
    let keyValue := rowGet row targetKeyIndex
    if keyValue ≠ "" && jsTrim keyValue ≠ "" then
      if m.any (fun p => p.1 = keyValue) then
        m.map (fun p => if p.1 = keyValue then (keyValue, row) else p)
      else m ++ [(keyValue, row)]
    else m) []

/-- All key-matched row pairs, in source iteration order (lines 304–312). -/
def matchingPairsOf (sourceData : List (List String)) (sourceKeyIndex : ℤ)
    (targetKeyMap : List (String × List String)) : List (List String × List String) :=
  sourceData.foldl (fun pairs sourceRow =>
    let sourceKeyValue := rowGet sourceRow sourceKeyIndex
    if sourceKeyValue ≠ "" then
      match targetKeyMap.lookup sourceKeyValue with
      | some targetRow => pairs ++ [(sourceRow, targetRow)]
      | none => pairs
    else pairs) []

/-- Extract the rationals of a value list when every value is a number
(`values.every(v => typeof v === 'number')`). -/
def allNums : List JsValue → Option (List ℚ)
  | [] => some []
  | .num q :: rest => (allNums rest).map (fun l => q :: l)
  | .str _ :: _ => none

/-- Extract the strings of a value list when every value is a string. -/
def allStrs : List JsValue → Option (List String)
  | [] => some []
  | .str s :: rest => (allStrs rest).map (fun l => s :: l)
  | .num _ :: _ => none

/-- The key-matched row pairs the analyzer samples from, as a function of
the raw inputs (lines 288–312). -/
def analyzerMatchingPairs (sourceData : List (List String)) (sourceHeaders : List String)
    (targetData : List (List String)) (targetHeaders : List String)
    (uniqueKeyMapping : String × String) : List (List String × List String) :=
  matchingPairsOf sourceData (jsIndexOf sourceHeaders uniqueKeyMapping.1)
    (targetKeyMapOf targetData (jsIndexOf targetHeaders uniqueKeyMapping.2))

/-- The numeric-or-string values of the selected columns of one row
(lines 322–330). -/
def analyzerValues (columns headers : List String) (row : List String) : List JsValue :=
  (columns.map (jsIndexOf headers)).map (fun idx => jsValueOfCell (rowGet row idx))

/-- `analyzeColumnRelationship`: take the first key-matched row pair; on
all-numeric values try sum (confidence 95), two-column absolute
difference (90) and product (85) with tolerance 0.001; on all-string
values try concatenation (90); otherwise report that a custom formula is
needed, and with no matched pair at all that no matching data was found. -/
def analyzeColumnRelationship (sourceColumns : List String)
    (sourceData : List (List String)) (sourceHeaders : List String)
    (targetColumns : List String) (targetData : List (List String))
    (targetHeaders : List String) (uniqueKeyMapping : String × String) :
    RelationshipResult :=
  let matchingPairs := analyzerMatchingPairs sourceData sourceHeaders targetData
    targetHeaders uniqueKeyMapping
  match matchingPairs with
  | [] => ⟨"No matching data found", 0⟩
  | (sourceRow, targetRow) :: _ =>
    let sourceValues := analyzerValues sourceColumns sourceHeaders sourceRow
    let targetValues := analyzerValues targetColumns targetHeaders targetRow
    let numericCase : Option RelationshipResult :=
      match allNums sourceValues, allNums targetValues with
      | some sNums, some tNums =>
        if 0 < sourceValues.length ∧ tNums.length = 1 then
          let targetValue := tNums.headD 0
          let sumSourceValues := sNums.foldl (fun sum val => sum + val) 0
          if |sumSourceValues - targetValue| < 0.001 then
            some ⟨String.intercalate " + " sourceColumns ++ " = " ++ targetColumns.headD "", 95⟩
          else if sourceValues.length = 2 ∧
              |(|sNums.headD 0 - (sNums.get? 1).getD 0|) - targetValue| < 0.001 then
            some ⟨"|" ++ sourceColumns.headD "" ++ " - " ++ (sourceColumns.get? 1).getD "" ++
              "| = " ++ targetColumns.headD "", 90⟩
          else if |sNums.foldl (fun prod val => prod * val) 1 - targetValue| < 0.001 then
            some ⟨String.intercalate " × " sourceColumns ++ " = " ++ targetColumns.headD "", 85⟩
          else none
        else none
      | _, _ => none
    match numericCase with
    | some r => r
    | none =>
      match allStrs sourceValues, allStrs targetValues with
      | some sStrs, some tStrs =>
        if tStrs.length = 1 ∧ String.join sStrs = tStrs.headD "" then
          ⟨String.intercalate " + " sourceColumns ++ " = " ++ targetColumns.headD "" ++
            " (concatenation)", 90⟩
        else ⟨"Custom formula needed", 0⟩
      | _, _ => ⟨"Custom formula needed", 0⟩

/-! ## Reconciliation Engine — `performReconciliation`
(`ReconciliationInterface.tsx` 33–178) -/

/-- Match classification of a key-matched row pair. -/
inductive MatchStatus
  | matched
  | value_mismatch
deriving DecidableEq, Repr, Inhabited

/-- Which side an unmatched row came from. -/
inductive Side
  | source
  | target
deriving DecidableEq, Repr

/-- A matched transaction. -/
structure MatchedTransaction where
  sourceRow : List (String × String)
  targetRow : List (String × String)
  sourceValue : JsValue
  targetValue : JsValue
  difference : Option ℚ
  key : String
  status : MatchStatus
deriving DecidableEq, Repr, Inhabited

/-- An unmatched transaction. -/
structure UnmatchedTransaction where
  type : Side
  row : List (String × String)
  key : String
  reason : String
deriving DecidableEq, Repr

/-- The aggregate summary. -/
structure ReconciliationSummary where
  totalTransactions : ℕ
  matchedTransactions : ℕ
  unmatchedTransactions : ℕ
  matchPercentage : ℤ
  totalSourceValue : ℚ
  totalTargetValue : ℚ
  totalDifference : ℚ
  perfectMatches : ℕ
  valueMismatches : ℕ
deriving DecidableEq, Repr

/-- The result of a reconciliation run. -/
structure ReconciliationResult where
  matched : List MatchedTransaction
  unmatched : List UnmatchedTransaction
  summary : ReconciliationSummary
deriving DecidableEq, Repr

/-- One table as handed to the engine. -/
structure TableData where
  headers : List String
  data : List (List String)
deriving DecidableEq, Repr

/-- The confirmed key mapping. -/
structure KeyMapping where
  sourceKey : String
  targetKey : String
deriving DecidableEq, Repr

/-- The confirmed formula with its column lists. -/
structure RecFormula where
  sourceColumns : List String
  targetColumns : List String
  formula : String
deriving DecidableEq, Repr

/-- The full input of `performReconciliation`. -/
structure ReconInput where
  sourceData : TableData
  targetData : TableData
  uniqueKeyMapping : KeyMapping
  reconciliationColumns : RecFormula
deriving DecidableEq, Repr

/-- A source-lookup entry: the row object and its evaluated value. -/
structure SourceEntry where
  row : List (String × String)
  value : JsValue
deriving DecidableEq, Repr

/-- An insertion-ordered JavaScript `Map`. -/
abbrev JsMap (E : Type) := List (String × E)

/-- `Map.prototype.set`: overwrite in place when the key is present,
append otherwise. -/
def jsSet {E : Type} (m : JsMap E) (k : String) (v : E) : JsMap E :=
  if m.any (fun p => p.1 = k) then
    m.map (fun p => if p.1 = k then (k, v) else p)
  else m ++ [(k, v)]

/-- `Map.prototype.get` (`none` for `undefined`). -/
def jsGet {E : Type} (m : JsMap E) (k : String) : Option E :=
  m.lookup k

/-- `Map.prototype.has`. -/
def jsHas {E : Type} (m : JsMap E) (k : String) : Bool :=
  (m.lookup k).isSome

/-- `Map.prototype.delete`. -/
def jsDelete {E : Type} (m : JsMap E) (k : String) : JsMap E :=
  m.filter (fun p => p.1 ≠ k)

/-- The key cell of a source row (`row[sourceKeyIndex]`). -/
def sourceRowKey (inp : ReconInput) (row : List String) : String :=
  rowGet row (jsIndexOf inp.sourceData.headers inp.uniqueKeyMapping.sourceKey)

/-- The key cell of a target row (`row[targetKeyIndex]`). -/
def targetRowKey (inp : ReconInput) (row : List String) : String :=
  rowGet row (jsIndexOf inp.targetData.headers inp.uniqueKeyMapping.targetKey)

/-- The source-lookup entry built for one source row (lines 44–56). -/
def mkSourceEntry (inp : ReconInput) (row : List String) : SourceEntry :=
  let rowObj := mkRowObj inp.sourceData.headers row
  { row := rowObj
    value := evaluateFormulaForRow inp.reconciliationColumns.sourceColumns rowObj
      inp.reconciliationColumns.formula true }

/-- One step of phase 1 (lines 41–58): enter a source row into the
lookup unless its key is empty; `Map.set` overwrites a repeated key. -/
def sourceMapStep (inp : ReconInput) (sourceMap : JsMap SourceEntry)
    (row : List String) : JsMap SourceEntry :=
  let keyValue := sourceRowKey inp row
  if keyValue ≠ "" then jsSet sourceMap keyValue (mkSourceEntry inp row)
  else sourceMap

/-- Phase 1 (lines 38–58): the lookup from every non-empty source key to
the row object and evaluated source value; a repeated key overwrites. -/
def buildSourceMap (inp : ReconInput) : JsMap SourceEntry :=
  inp.sourceData.data.foldl (sourceMapStep inp) []

/-- The state threaded through the target pass (lines 60–69). -/
structure TargetPhaseState where
  map : JsMap SourceEntry
  matched : List MatchedTransaction
  unmatchedTarget : List UnmatchedTransaction
  totalSourceValue : ℚ
  totalTargetValue : ℚ
  totalDifference : ℚ
  perfectMatches : ℕ
  valueMismatches : ℕ

/-- One step of the target pass (lines 71–131): skip blank keys, evaluate
the target value, and on a lookup hit consume the source entry and
classify the pair; on a miss record an unmatched target row. -/
def targetStep (inp : ReconInput) (st : TargetPhaseState) (row : List String) :
    TargetPhaseState :=
  let keyValue := targetRowKey inp row
  if keyValue = "" then st
  else
    let rowObj := mkRowObj inp.targetData.headers row
    let targetValue := evaluateFormulaForRow inp.reconciliationColumns.targetColumns rowObj
      inp.reconciliationColumns.formula false
    match jsGet st.map keyValue with
    | some sourceItem =>
      let map2 := jsDelete st.map keyValue
      match sourceItem.value, targetValue with
      | .num sv, .num tv =>
        let difference := sv - tv
        if |difference| < 0.001 then
          let tx : MatchedTransaction :=
            ⟨sourceItem.row, rowObj, .num sv, .num tv, some 0, keyValue, .matched⟩
          { st with
            map := map2
            matched := st.matched ++ [tx]
            totalSourceValue := st.totalSourceValue + sv
            totalTargetValue := st.totalTargetValue + tv
            totalDifference := st.totalDifference + difference
            perfectMatches := st.perfectMatches + 1 }
        else
          let tx : MatchedTransaction :=
            ⟨sourceItem.row, rowObj, .num sv, .num tv, some difference, keyValue,
              .value_mismatch⟩
          { st with
            map := map2
            matched := st.matched ++ [tx]
            totalSourceValue := st.totalSourceValue + sv
            totalTargetValue := st.totalTargetValue + tv
            totalDifference := st.totalDifference + difference
            valueMismatches := st.valueMismatches + 1 }
      | sv, tv =>
        if sv ≠ tv then
          let tx : MatchedTransaction :=
            ⟨sourceItem.row, rowObj, sv, tv, none, keyValue, .value_mismatch⟩
          { st with
            map := map2
            matched := st.matched ++ [tx]
            valueMismatches := st.valueMismatches + 1 }
        else
          let tx : MatchedTransaction :=
            ⟨sourceItem.row, rowObj, sv, tv, none, keyValue, .matched⟩
          { st with
            map := map2
            matched := st.matched ++ [tx]
            perfectMatches := st.perfectMatches + 1 }
    | none =>
      let ut : UnmatchedTransaction :=
        ⟨.target, rowObj, keyValue,
          "No matching transaction with ID \x27" ++ keyValue ++
            "\x27 found in source data"⟩
      { st with unmatchedTarget := st.unmatchedTarget ++ [ut] }

/-- `performReconciliation` (lines 33–178): build the source lookup, run
the target pass, turn every unconsumed source entry into an unmatched
source row (lines 133–144), concatenate unmatched source rows before
unmatched target rows (line 146) and compute the summary. -/
def performReconciliation (inp : ReconInput) : ReconciliationResult :=
  let sourceMap := buildSourceMap inp
  let st := inp.targetData.data.foldl (targetStep inp)
    { map := sourceMap, matched := [], unmatchedTarget := [],
      totalSourceValue := 0, totalTargetValue := 0, totalDifference := 0,
      perfectMatches := 0, valueMismatches := 0 }
  let unmatchedSource := st.map.map (fun p =>
    (⟨.source, p.2.row, p.1,
      "No matching transaction with ID \x27" ++ p.1 ++
        "\x27 found in target data"⟩ : UnmatchedTransaction))
  let totalSourceValue := st.map.foldl (fun t p =>
    match p.2.value with
    | .num q => t + q
    | .str _ => t) st.totalSourceValue
  let unmatched := unmatchedSource ++ st.unmatchedTarget
  let totalTransactions := st.matched.length + unmatched.length
  let matchedTransactions := st.matched.length
  let unmatchedTransactions := unmatched.length
  let matchPercentage : ℤ :=
    if 0 < totalTransactions then
      jsRound ((matchedTransactions : ℚ) / (totalTransactions : ℚ) * 100)
    else 0
  { matched := st.matched
    unmatched := unmatched
    summary := { totalTransactions := totalTransactions
                 matchedTransactions := matchedTransactions
                 unmatchedTransactions := unmatchedTransactions
                 matchPercentage := matchPercentage
                 totalSourceValue := totalSourceValue
                 totalTargetValue := st.totalTargetValue
                 totalDifference := st.totalDifference
                 perfectMatches := st.perfectMatches
                 valueMismatches := st.valueMismatches } }

/-- The classification contract of one matched transaction with numeric
values: difference is source minus target, tolerance 0.001, difference
normalised to 0 on a match. -/
def matchedClassified (m : MatchedTransaction) : Prop :=
  ∀ sv tv : ℚ, m.sourceValue = .num sv → m.targetValue = .num tv →
    (|sv - tv| < 0.001 → m.status = .matched ∧ m.difference = some 0) ∧
    (¬ |sv - tv| < 0.001 → m.status = .value_mismatch ∧ m.difference = some (sv - tv))

/-- The invariant maintained by the target pass: every matched entry is
classified by the tolerance rule, the two counters count the two
statuses, the lookup keys stay nodup, and unmatched-target entries carry
the target side. -/
def stateInv (st : TargetPhaseState) : Prop :=
  (∀ m ∈ st.matched, matchedClassified m) ∧
  st.perfectMatches = st.matched.countP (fun m => m.status == MatchStatus.matched) ∧
  st.valueMismatches = st.matched.countP (fun m => m.status == MatchStatus.value_mismatch) ∧
  (st.map.map Prod.fst).Nodup ∧
  (∀ u ∈ st.unmatchedTarget, u.type = Side.target)

/-- Two source lookups that agree everywhere except in the value stored
at key `k`: both are `a ++ (k, _) :: b` with `k` absent from `a` and `b`.
This is the shape left behind by entering two source rows that share the
key `k`, and it is preserved by every later `Map.set`. -/
def dupShape {E : Type} (k : String) (m m2 : JsMap E) : Prop :=
  ∃ a b : JsMap E, ∃ x y : E,
    (∀ p ∈ a, p.1 ≠ k) ∧ (∀ p ∈ b, p.1 ≠ k) ∧
    m = a ++ (k, x) :: b ∧ m2 = a ++ (k, y) :: b

/-! ## Concrete inputs used to witness and to refute claims -/

/-- Two source rows whose amounts differ from their targets by exactly
0.0005 (key `K`) and by 0.002 (key `L`). -/
def toleranceInput : ReconInput :=
  ⟨⟨["Key", "Amt"], [["K", "10.0005"], ["L", "10.002"]]⟩,
   ⟨["Key", "Amt"], [["K", "10"], ["L", "10"]]⟩,
   ⟨"Key", "Key"⟩,
   ⟨["Amt"], ["Amt"], "Amt"⟩⟩

/-- The matched transaction of `toleranceInput` for key `K`. -/
def toleranceMatchedK : MatchedTransaction :=
  (performReconciliation toleranceInput).matched.getD 0 default

/-- The matched transaction of `toleranceInput` for key `L`. -/
def toleranceMatchedL : MatchedTransaction :=
  (performReconciliation toleranceInput).matched.getD 1 default

/-- One unmatched source row (key `A`) and one unmatched target row
(key `B`). -/
def orderInput : ReconInput :=
  ⟨⟨["Key", "Amt"], [["A", "1"]]⟩,
   ⟨["Key", "Amt"], [["B", "2"]]⟩,
   ⟨"Key", "Key"⟩,
   ⟨["Amt"], ["Amt"], "Amt"⟩⟩

/-- A source table with two rows sharing the key `K` and an empty target
table. -/
def duplicateKeyInput : ReconInput :=
  ⟨⟨["Key", "Amt"], [["K", "1"], ["K", "2"]]⟩,
   ⟨["Key", "Amt"], []⟩,
   ⟨"Key", "Key"⟩,
   ⟨["Amt"], ["Amt"], "Amt"⟩⟩

/-- Twenty source rows with pairwise distinct key values `100`–`119`. -/
def overflowSourceData : List (List String) :=
  (List.range 20).map (fun i => [natToDecString (100 + i)])

/-- The same twenty key values plus a duplicate of `100`: 20 distinct
values in 21 rows, a uniqueness ratio of 20/21 > 0.95. -/
def overflowTargetData : List (List String) :=
  overflowSourceData ++ [["100"]]

/-- A tiny table pair with one honest key candidate. -/
def smallCandidate : KeyCandidate :=
  (findMatchingUniqueKeys ["Key1"] [["aa"], ["bb"]] ["Key2"] [["aa"], ["cc"]]).getD 0 default

section Theorems

/-!
The `Rat` arithmetic operations are `@[irreducible]` in the library; the
evaluation-style proofs below (`decide` on concrete runs of the engine)
need them to reduce, so inside this section they are restored to the
default transparency.  The kernel ignores reducibility attributes, so
checked proofs are unaffected.
-/
set_option allowUnsafeReducibility true
attribute [local semireducible] Rat.add Rat.sub Rat.mul Rat.div Rat.neg Rat.inv Rat.ofScientific

/-! ## C3 — multi-column formulas without `=` -/

/-- C3 counterexample: on the formula `A - B` over row `{A: "10", B: "4"}`
the evaluator returns the sum 14, not the difference 6 the claim
requires. -/
theorem c3_claim_counterexample :
    evaluateFormulaForRow ["A", "B"] [("A", "10"), ("B", "4")] "A - B" true =
      JsValue.num 14 ∧
    JsValue.num 14 ≠ JsValue.num 6 := by
  constructor
  · decide
  · decide

/-- C3 (amended): a formula string that contains no `=` and references
more than one column is not substituted and evaluated at all — the
evaluator ignores the expression text and returns the sum of the
referenced columns' numeric-coerced values (0 for a non-numeric cell);
for formula `A - B` with row `{A: "10", B: "4"}` this sum is 14. -/
theorem c3_no_equals_formula_sums (columns : List String)
    (row : List (String × String)) (formula : String) (isSource : Bool)
    (hlen : 1 < columns.length) (heq : formula.toList.contains '=' = false) :
    evaluateFormulaForRow columns row formula isSource =
      JsValue.num (columns.foldl (fun sum col =>
        sum + ((jsNumber (objGet row col)).getD 0)) 0) := by
  unfold evaluateFormulaForRow
  have h0 : ¬ columns.length = 0 := by omega
  have h1 : ¬ columns.length = 1 := by omega
  have h2 : ¬ ('=' ∈ formula.data) := by simpa [String.toList] using heq
  simp [h0, h1, h2]

/-- C3 witness: the amended theorem applied at the concrete row of the
counterexample. -/
theorem c3_no_equals_formula_sums_witness :
    evaluateFormulaForRow ["A", "B"] [("A", "10"), ("B", "4")] "A - B" true =
      JsValue.num ((["A", "B"] : List String).foldl (fun sum col =>
        sum + ((jsNumber (objGet [("A", "10"), ("B", "4")] col)).getD 0)) 0) :=
  c3_no_equals_formula_sums _ _ _ _ (by decide) (by decide)

/-! ## C6 — column substitution is naive substring replacement -/

/-- Replacement is the identity when the pattern does not occur,
whatever the fuel. -/
theorem jsReplaceAllAux_of_not_occurs (fuel : ℕ) :
    ∀ (text pat repl : List Char), pat ≠ [] →
    listOccursIn pat text = false → jsReplaceAllAux fuel text pat repl = text := by
  induction fuel with
  | zero => intro text pat repl _ _; rfl
  | succ fuel ih =>
    intro text pat repl hp h
    cases pat with
    | nil => exact absurd rfl hp
    | cons p ps =>
      cases text with
      | nil => rfl
      | cons c rest =>
        rw [listOccursIn] at h
        have hstart : listStartsWith (p :: ps) (c :: rest) = false := by
          cases hs : listStartsWith (p :: ps) (c :: rest) <;> simp [hs] at h ⊢
        have hrest : listOccursIn (p :: ps) rest = false := by
          cases hr : listOccursIn (p :: ps) rest <;> simp [hr, hstart] at h ⊢
        show (if listStartsWith (p :: ps) (c :: rest) = true then _ else
          c :: jsReplaceAllAux fuel rest (p :: ps) repl) = c :: rest
        rw [if_neg (by simp [hstart]), ih rest (p :: ps) repl hp hrest]

/-- Replacement is the identity when the pattern does not occur. -/
theorem jsReplaceAll_of_not_occurs (text pat repl : List Char) (hp : pat ≠ [])
    (h : listOccursIn pat text = false) : jsReplaceAll text pat repl = text :=
  jsReplaceAllAux_of_not_occurs _ _ _ _ hp h

/-- C6 counterexample: with columns `A` and `AB`, value 1 for `A`, and the
target sub-expression `AB`, substituting column `A` rewrites the interior
of the token `AB`, producing the malformed expression `1B`; the evaluator
then returns 0, not the value 23 of column `AB`. -/
theorem c6_claim_counterexample :
    substituteColumns ["A"] [("A", "1"), ("AB", "23")] "AB" = "1B" ∧
    evaluateFormulaForRow ["A", "AB"] [("A", "1"), ("AB", "23")] "A = AB" false =
      JsValue.num 0 ∧
    JsValue.num 0 ≠ JsValue.num 23 := by
  refine ⟨by decide, by decide, by decide⟩

/-- On a formula containing `=` and more than one column, the evaluator
substitutes the columns into the side-relevant half and evaluates it,
degrading failures to 0. -/
theorem evaluateFormulaForRow_eq_branch (columns : List String)
    (row : List (String × String)) (formula : String) (isSource : Bool)
    (hlen : 1 < columns.length) (hq : formula.toList.contains '=' = true) :
    evaluateFormulaForRow columns row formula isSource =
      (match jsEval (substituteColumns columns row (jsTrim
        (if isSource
         then ((splitOnChar '=' formula.toList).map (fun l => (⟨l⟩ : String))).headD ""
         else (((splitOnChar '=' formula.toList).map
           (fun l => (⟨l⟩ : String))).get? 1).getD ""))) with
       | some result => JsValue.num result
       | none => JsValue.num 0) := by
  unfold evaluateFormulaForRow
  have h0 : ¬ columns.length = 0 := by omega
  have h1 : ¬ columns.length = 1 := by omega
  simp only [h0, h1, hq, if_false, if_true, ite_false, ite_true]

/-- C6 (amended): column substitution is naive global substring
replacement, not whole-token matching — a column name occurring inside a
longer column name is rewritten.  With columns `['A', 'AB']`, row value
`"1"` for `A`, and formula `A = AB`, the target side `AB` becomes `1B`
before `AB` can be resolved, and the evaluator returns 0 whatever value
the column `AB` holds. -/
theorem c6_substitution_not_token_safe (vAB : String) :
    evaluateFormulaForRow ["A", "AB"] [("A", "1"), ("AB", vAB)] "A = AB" false =
      JsValue.num 0 := by
  have h1 : objGet [("A", "1"), ("AB", vAB)] "A" = "1" := by
    simp [objGet]
  have h2 : jsStringReplace "AB" "A"
      (renderQ ((jsNumber (objGet [("A", "1"), ("AB", vAB)] "A")).getD 0)) = "1B" := by
    rw [h1]; decide
  have h3 : jsStringReplace "1B" "AB"
      (renderQ ((jsNumber (objGet [("A", "1"), ("AB", vAB)] "AB")).getD 0)) = "1B" := by
    show (⟨jsReplaceAll ("1B" : String).toList ("AB" : String).toList _⟩ : String) = "1B"
    rw [jsReplaceAll_of_not_occurs _ _ _ (by decide) (by decide)]
    rfl
  have hsub : substituteColumns ["A", "AB"] [("A", "1"), ("AB", vAB)] "AB" = "1B" := by
    simp only [substituteColumns, List.foldl_cons, List.foldl_nil]
    rw [h2, h3]
  rw [evaluateFormulaForRow_eq_branch _ _ _ _ (by decide) (by decide)]
  have h5 : jsTrim ((((splitOnChar '=' ("A = AB" : String).toList).map
      (fun l => (⟨l⟩ : String))).get? 1).getD "") = "AB" := by decide
  simp only [Bool.false_eq_true, if_false, ite_false]
  rw [h5, hsub]
  decide

/-! ## C8 — bounds and reflexivity of `calculateSimilarity` -/

/-- The floor of a non-negative rational is non-negative. -/
theorem jsFloor_nonneg {x : ℚ} (h : 0 ≤ x) : 0 ≤ jsFloor x :=
  Int.floor_nonneg.mpr h

/-- The floor of a rational bounded by an integer is bounded by it. -/
theorem jsFloor_le_of_le {x : ℚ} {n : ℤ} (h : x ≤ (n : ℚ)) : jsFloor x ≤ n := by
  have h2 := Int.floor_le_floor h
  simpa [jsFloor] using h2

/-- Rounding a non-negative rational gives a non-negative integer. -/
theorem jsRound_nonneg {x : ℚ} (h : 0 ≤ x) : 0 ≤ jsRound x :=
  Int.floor_nonneg.mpr (by linarith)

/-- A scaled ratio `x / y * c` with `0 ≤ x ≤ y` and `0 ≤ c` has its floor
between 0 and `⌊c⌋`. -/
theorem jsFloor_ratio_bounds (x y c : ℚ) (hx : 0 ≤ x) (hxy : x ≤ y)
    (hc : 0 ≤ c) : 0 ≤ jsFloor (x / y * c) ∧ jsFloor (x / y * c) ≤ ⌊c⌋ := by
  have hy : 0 ≤ y := le_trans hx hxy
  have h1 : x / y ≤ 1 := div_le_one_of_le₀ hxy hy
  have h0 : 0 ≤ x / y := div_nonneg hx hy
  constructor
  · exact jsFloor_nonneg (by nlinarith)
  · exact Int.floor_le_floor (by nlinarith)

/-- C8: the similarity score used by the Header Matcher is always between
0 and 100, and any non-empty string has similarity 100 with itself. -/
theorem c8_similarity_bounds (a b : String) :
    0 ≤ calculateSimilarity a b ∧ calculateSimilarity a b ≤ 100 ∧
    (a ≠ "" → calculateSimilarity a a = 100) := by
  have hmain : 0 ≤ calculateSimilarity a b ∧ calculateSimilarity a b ≤ 100 := by
    simp only [calculateSimilarity]
    split_ifs with h1 h2
    · norm_num
    · have hb := jsFloor_ratio_bounds
        ((((strToLower a).toList.length : ℚ)) ⊓ (((strToLower b).toList.length : ℚ)))
        ((((strToLower a).toList.length : ℚ)) ⊔ (((strToLower b).toList.length : ℚ)))
        80 (le_min (by positivity) (by positivity)) min_le_max (by norm_num)
      refine ⟨hb.1, le_trans hb.2 (by norm_num)⟩
    · have hm : ((List.countP (fun c => (strToLower b).toList.contains c)
          (strToLower a).toList : ℕ) : ℚ) ≤ (((strToLower a).toList.length : ℚ)) :=
        Nat.cast_le.mpr (List.countP_le_length _)
      have hb := jsFloor_ratio_bounds
        ((List.countP (fun c => (strToLower b).toList.contains c) (strToLower a).toList : ℚ))
        ((((strToLower a).toList.length : ℚ)) ⊔ (((strToLower b).toList.length : ℚ)))
        60 (by positivity) (le_trans hm le_sup_left) (by norm_num)
      refine ⟨hb.1, le_trans hb.2 (by norm_num)⟩
  exact ⟨hmain.1, hmain.2, fun _ => by simp [calculateSimilarity]⟩

/-- C8 witness: the theorem applied to the concrete strings `Amt` and
`Amount`, and to `Amt` with itself. -/
theorem c8_similarity_bounds_witness :
    (0 ≤ calculateSimilarity "Amt" "Amount" ∧ calculateSimilarity "Amt" "Amount" ≤ 100) ∧
    calculateSimilarity "Amt" "Amt" = 100 :=
  ⟨⟨(c8_similarity_bounds "Amt" "Amount").1, (c8_similarity_bounds "Amt" "Amount").2.1⟩,
   (c8_similarity_bounds "Amt" "Amt").2.2 (by decide)⟩

/-! ## C7 — Key Detector threshold -/

/-- A fold that conditionally appends is the filter-map of its input. -/
theorem foldl_append_filter {α β : Type} (accept : α → Bool) (f : α → β)
    (step : List β → α → List β)
    (hstep : ∀ acc x, step acc x = if accept x then acc ++ [f x] else acc) :
    ∀ (l : List α) (acc : List β),
      l.foldl step acc = acc ++ (l.filter accept).map f := by
  intro l
  induction l with
  | nil => intro acc; simp
  | cons hd tl ih =>
    intro acc
    rw [List.foldl_cons, hstep, List.filter_cons]
    by_cases h : accept hd
    · simp [h, ih]
    · simp [h, ih]

/-- `detectUniqueKeys` keeps exactly the headers whose indexed column is
accepted, in header order. -/
theorem detectUniqueKeys_eq (headers : List String) (data : List (List String)) :
    detectUniqueKeys headers data =
      (headers.enum.filter (acceptCol data)).map Prod.snd := by
  unfold detectUniqueKeys
  refine (foldl_append_filter (acceptCol data) Prod.snd _ ?_ headers.enum []).trans
    (by simp)
  intro acc hi
  rcases hi with ⟨index, header⟩
  unfold acceptCol
  dsimp only
  cases hb1 : decide (header.toList.length < 2) ||
      ["id", "no", "num", "#"].contains (strToLower header) with
  | true => simp
  | false =>
    cases hb2 : (columnValues data index).any (fun value => decide (jsTrim value = "")) with
    | true => simp
    | false =>
      by_cases hb3 : ((columnValues data index).dedup.length : ℚ) /
          ((columnValues data index).length : ℚ) > 95 / 100
      · rw [if_pos hb3]; simp [hb3]
      · rw [if_neg hb3]; simp [hb3]

/-- C7: over distinct headers, a column whose distinct-to-total ratio is
at most 0.95 never appears in the Key Detector output, and a column with
a header of at least two characters that is not a generic name, no blank
values, and ratio exactly 1 always appears. -/
theorem c7_detector_threshold (headers : List String) (data : List (List String))
    (i : ℕ) (hi : i < headers.length) (hnd : headers.Nodup) :
    ((((columnValues data i).dedup.length : ℚ) / ((columnValues data i).length : ℚ)
        ≤ 95 / 100 →
      headers[i] ∉ detectUniqueKeys headers data) ∧
     (2 ≤ headers[i].toList.length →
      ["id", "no", "num", "#"].contains (strToLower headers[i]) = false →
      (∀ v ∈ columnValues data i, jsTrim v ≠ "") →
      (((columnValues data i).dedup.length : ℚ) / ((columnValues data i).length : ℚ)) = 1 →
      headers[i] ∈ detectUniqueKeys headers data)) := by
  rw [detectUniqueKeys_eq]
  constructor
  · intro hle hmem
    obtain ⟨⟨j, h⟩, hmem2, heq⟩ := List.mem_map.mp hmem
    rw [List.mem_filter] at hmem2
    obtain ⟨henum, hacc⟩ := hmem2
    have hj := List.mk_mem_enum_iff_getElem?.mp henum
    have hjlt : j < headers.length := by
      by_contra hge
      rw [List.getElem?_eq_none (by omega)] at hj
      exact Option.noConfusion hj
    rw [List.getElem?_eq_getElem hjlt] at hj
    have hji : j = i := by
      have h2 : headers[j] = headers[i] := by
        rw [Option.some.inj hj]
        simpa using heq
      exact (List.Nodup.getElem_inj_iff hnd).mp h2
    subst hji
    simp only [acceptCol, Bool.and_eq_true, decide_eq_true_eq] at hacc
    have h3 := hacc.2
    linarith
  · intro hlen hstop hempty hratio
    refine List.mem_map.mpr ⟨(i, headers[i]), ?_, rfl⟩
    rw [List.mem_filter]
    refine ⟨List.mk_mem_enum_iff_getElem?.mpr (by simp [List.getElem?_eq_getElem hi]), ?_⟩
    unfold acceptCol
    dsimp only
    have e1 : decide (headers[i].toList.length < 2) = false := by
      simp only [decide_eq_false_iff_not]
      omega
    have e2 : ["id", "no", "num", "#"].contains (strToLower headers[i]) = false := hstop
    have e3 : (columnValues data i).any (fun value => decide (jsTrim value = "")) = false := by
      rw [List.any_eq_false]
      intro v hv
      simpa using hempty v hv
    have e4 : decide (((columnValues data i).dedup.length : ℚ) /
        ((columnValues data i).length : ℚ) > 95 / 100) = true := by
      simp only [decide_eq_true_eq]
      rw [hratio]
      norm_num
    rw [e1, e2, e3, e4]
    rfl

/-- C7 witness: on the table `{Key, Dup}` with rows `[a, x]` and `[b, x]`,
the duplicated column `Dup` (ratio 1/2) is rejected and the fully unique
column `Key` is accepted. -/
theorem c7_detector_threshold_witness :
    "Dup" ∉ detectUniqueKeys ["Key", "Dup"] [["a", "x"], ["b", "x"]] ∧
    "Key" ∈ detectUniqueKeys ["Key", "Dup"] [["a", "x"], ["b", "x"]] := by
  constructor
  · exact (c7_detector_threshold ["Key", "Dup"] [["a", "x"], ["b", "x"]] 1
      (by decide) (by decide)).1 (by decide)
  · exact (c7_detector_threshold ["Key", "Dup"] [["a", "x"], ["b", "x"]] 0
      (by decide) (by decide)).2 (by decide) (by decide) (by decide) (by decide)

/-! ## C4 — Key Matcher confidence -/

/-- Membership in a fold that appends a block per element. -/
theorem mem_foldl_append {α β : Type} (f : α → List β) :
    ∀ (l : List α) (acc : List β) (x : β),
      (x ∈ l.foldl (fun a e => a ++ f e) acc ↔ x ∈ acc ∨ ∃ e ∈ l, x ∈ f e) := by
  intro l
  induction l with
  | nil => intro acc x; simp
  | cons hd tl ih =>
    intro acc x
    rw [List.foldl_cons, ih]
    simp only [List.mem_append, List.mem_cons, or_assoc]
    constructor
    · rintro (h | h | ⟨e, he, hx⟩)
      · exact Or.inl h
      · exact Or.inr ⟨hd, Or.inl rfl, h⟩
      · exact Or.inr ⟨e, Or.inr he, hx⟩
    · rintro (h | ⟨e, he | he, hx⟩)
      · exact Or.inl h
      · exact Or.inr (Or.inl (he ▸ hx))
      · exact Or.inr (Or.inr ⟨e, he, hx⟩)

/-- Membership is preserved by confidence insertion. -/
theorem mem_insertByConfidence {x y : KeyCandidate} :
    ∀ {l : List KeyCandidate}, x ∈ insertByConfidence y l ↔ x = y ∨ x ∈ l := by
  intro l
  induction l with
  | nil => simp [insertByConfidence]
  | cons hd tl ih =>
    rw [insertByConfidence]
    split_ifs with h
    · simp
    · simp only [List.mem_cons, ih]
      tauto

/-- Sorting by confidence preserves membership. -/
theorem mem_sortByConfidenceDesc {x : KeyCandidate} :
    ∀ {l : List KeyCandidate}, x ∈ sortByConfidenceDesc l ↔ x ∈ l := by
  intro l
  induction l with
  | nil => simp [sortByConfidenceDesc]
  | cons hd tl ih =>
    show x ∈ insertByConfidence hd (sortByConfidenceDesc tl) ↔ _
    rw [mem_insertByConfidence, ih]
    simp

/-- The round-based name similarity is never negative. -/
theorem calculateStringSimilarity_nonneg (a b : String) :
    0 ≤ calculateStringSimilarity a b := by
  simp only [calculateStringSimilarity]
  split_ifs with h1 h2 h3
  · norm_num
  · have hx : (0 : ℚ) ≤ ((strToLower a).toList.length : ℚ) ⊓ ((strToLower b).toList.length : ℚ) :=
      le_min (by positivity) (by positivity)
    have hy : (0 : ℚ) ≤ ((strToLower a).toList.length : ℚ) ⊔ ((strToLower b).toList.length : ℚ) :=
      le_trans (by positivity) le_sup_left
    exact jsRound_nonneg (mul_nonneg (div_nonneg hx hy) (by norm_num))
  · norm_num
  · have hy : (0 : ℚ) ≤ ((strToLower a).toList.length : ℚ) ⊔ ((strToLower b).toList.length : ℚ) :=
      le_trans (by positivity) le_sup_left
    exact jsRound_nonneg (mul_nonneg (div_nonneg (by positivity) hy) (by norm_num))

/-- The value-overlap percentage is never negative. -/
theorem keyValueMatchPercentage_nonneg (sourceHeaders : List String)
    (sourceData : List (List String)) (targetHeaders : List String)
    (targetData : List (List String)) (sourceKey targetKey : String) :
    0 ≤ keyValueMatchPercentage sourceHeaders sourceData targetHeaders targetData
      sourceKey targetKey := by
  unfold keyValueMatchPercentage
  have hy : (0 : ℚ) ≤
      ((columnValues sourceData (sourceHeaders.indexOf sourceKey)).length : ℚ) ⊓
      ((columnValues targetData (targetHeaders.indexOf targetKey)).length : ℚ) :=
    le_min (by positivity) (by positivity)
  exact mul_nonneg (div_nonneg (by positivity) hy) (by norm_num)

/-- C4 (amended): every key candidate's confidence is the rounded blend
`round(0.7 * valueMatchPercentage + 0.3 * nameSimilarity)` and is a
non-negative integer; it is NOT always at most 100, because the target
values are counted with multiplicity against the smaller column length. -/
theorem c4_confidence_formula (sourceHeaders : List String)
    (sourceData : List (List String)) (targetHeaders : List String)
    (targetData : List (List String)) (c : KeyCandidate)
    (hc : c ∈ findMatchingUniqueKeys sourceHeaders sourceData targetHeaders targetData) :
    c.confidence = jsRound ((7 / 10) * keyValueMatchPercentage sourceHeaders sourceData
        targetHeaders targetData c.sourceKey c.targetKey +
      (3 / 10) * (calculateStringSimilarity c.sourceKey c.targetKey : ℚ)) ∧
    0 ≤ c.confidence := by
  simp only [findMatchingUniqueKeys] at hc
  split_ifs at hc with hemp
  · simp at hc
  · have hc2 := mem_sortByConfidenceDesc.mp hc
    rw [mem_foldl_append] at hc2
    rcases hc2 with h | ⟨sk, _, hcmem⟩
    · simp at h
    · obtain ⟨tk, _, hceq⟩ := List.mem_map.mp hcmem
      subst hceq
      unfold keyPairCandidate
      refine ⟨by dsimp only; congr 1; ring, ?_⟩
      dsimp only
      exact jsRound_nonneg (add_nonneg
        (mul_nonneg (keyValueMatchPercentage_nonneg _ _ _ _ _ _) (by norm_num))
        (mul_nonneg (by exact_mod_cast calculateStringSimilarity_nonneg sk tk) (by norm_num)))

/-- C4 witness: the theorem applied to the only candidate of a small
table pair. -/
theorem c4_confidence_formula_witness :
    smallCandidate.confidence = jsRound ((7 / 10) * keyValueMatchPercentage ["Key1"]
        [["aa"], ["bb"]] ["Key2"] [["aa"], ["cc"]] smallCandidate.sourceKey
        smallCandidate.targetKey +
      (3 / 10) * (calculateStringSimilarity smallCandidate.sourceKey
        smallCandidate.targetKey : ℚ)) ∧
    0 ≤ smallCandidate.confidence :=
  c4_confidence_formula _ _ _ _ _ (by decide)

/-- C4 counterexample: with 20 distinct source keys and the same 20 target
keys plus one duplicate (ratio 20/21 > 0.95, so both columns are
detected), the duplicate is counted twice, the match percentage is 105,
and the confidence is 104 — outside [0, 100]. -/
theorem c4_claim_counterexample :
    (findMatchingUniqueKeys ["KeyA"] overflowSourceData ["KeyA"]
      overflowTargetData).map (fun c => c.confidence) = [104] ∧
    ¬ ((104 : ℤ) ≤ 100) := by
  constructor
  · decide
  · decide

/-! ## C9 — Relationship Analyzer heuristic order -/

/-- `allNums` preserves length. -/
theorem allNums_length : ∀ {l : List JsValue} {ns : List ℚ},
    allNums l = some ns → ns.length = l.length := by
  intro l
  induction l with
  | nil => intro ns h; cases h; rfl
  | cons v rest ih =>
    intro ns h
    cases v with
    | num q =>
      rw [allNums] at h
      cases hr : allNums rest with
      | none => rw [hr] at h; cases h
      | some ms => rw [hr] at h; cases h; simp [ih hr]
    | str s => cases h

/-- A list whose values are all strings (and at least one) is not all
numbers. -/
theorem allNums_of_allStrs {l : List JsValue} {ss : List String}
    (h : allStrs l = some ss) (hne : ss ≠ []) : allNums l = none := by
  cases l with
  | nil =>
    rw [allStrs] at h
    cases h
    exact absurd rfl hne
  | cons v rest =>
    cases v with
    | num q => cases h
    | str s => rfl

/-- A list whose values are all numbers (and at least one) is not all
strings. -/
theorem allStrs_of_allNums {l : List JsValue} {ns : List ℚ}
    (h : allNums l = some ns) (hne : ns ≠ []) : allStrs l = none := by
  cases l with
  | nil =>
    rw [allNums] at h
    cases h
    exact absurd rfl hne
  | cons v rest =>
    cases v with
    | str s => cases h
    | num q => rfl

/-- C9: the Relationship Analyzer samples the first key-matched row pair
and tries, in order, sum (confidence 95), two-column absolute difference
(90) and product (85) on all-numeric values with tolerance 0.001, then
concatenation (90) on all-string values; with no rule matched it reports
a custom formula is needed, and with no matched pair at all that no
matching data was found. -/
theorem c9_analyzer_heuristic (sourceColumns : List String)
    (sourceData : List (List String)) (sourceHeaders : List String)
    (targetColumns : List String) (targetData : List (List String))
    (targetHeaders : List String) (km : String × String) :
    (analyzerMatchingPairs sourceData sourceHeaders targetData targetHeaders km = [] →
      analyzeColumnRelationship sourceColumns sourceData sourceHeaders targetColumns
        targetData targetHeaders km = ⟨"No matching data found", 0⟩) ∧
    (∀ sRow tRow rest sNums tNums,
      analyzerMatchingPairs sourceData sourceHeaders targetData targetHeaders km =
        (sRow, tRow) :: rest →
      allNums (analyzerValues sourceColumns sourceHeaders sRow) = some sNums →
      allNums (analyzerValues targetColumns targetHeaders tRow) = some tNums →
      sNums ≠ [] → tNums.length = 1 →
      ((|sNums.foldl (fun sum val => sum + val) 0 - tNums.headD 0| < 0.001 →
        analyzeColumnRelationship sourceColumns sourceData sourceHeaders targetColumns
          targetData targetHeaders km =
          ⟨String.intercalate " + " sourceColumns ++ " = " ++ targetColumns.headD "", 95⟩) ∧
       (¬ |sNums.foldl (fun sum val => sum + val) 0 - tNums.headD 0| < 0.001 →
        sNums.length = 2 →
        |(|sNums.headD 0 - (sNums.get? 1).getD 0|) - tNums.headD 0| < 0.001 →
        analyzeColumnRelationship sourceColumns sourceData sourceHeaders targetColumns
          targetData targetHeaders km =
          ⟨"|" ++ sourceColumns.headD "" ++ " - " ++ (sourceColumns.get? 1).getD "" ++
            "| = " ++ targetColumns.headD "", 90⟩) ∧
       (¬ |sNums.foldl (fun sum val => sum + val) 0 - tNums.headD 0| < 0.001 →
        ¬ (sNums.length = 2 ∧
          |(|sNums.headD 0 - (sNums.get? 1).getD 0|) - tNums.headD 0| < 0.001) →
        |sNums.foldl (fun prod val => prod * val) 1 - tNums.headD 0| < 0.001 →
        analyzeColumnRelationship sourceColumns sourceData sourceHeaders targetColumns
          targetData targetHeaders km =
          ⟨String.intercalate " × " sourceColumns ++ " = " ++ targetColumns.headD "", 85⟩) ∧
       (¬ |sNums.foldl (fun sum val => sum + val) 0 - tNums.headD 0| < 0.001 →
        ¬ (sNums.length = 2 ∧
          |(|sNums.headD 0 - (sNums.get? 1).getD 0|) - tNums.headD 0| < 0.001) →
        ¬ |sNums.foldl (fun prod val => prod * val) 1 - tNums.headD 0| < 0.001 →
        analyzeColumnRelationship sourceColumns sourceData sourceHeaders targetColumns
          targetData targetHeaders km = ⟨"Custom formula needed", 0⟩))) ∧
    (∀ sRow tRow rest sStrs tStrs,
      analyzerMatchingPairs sourceData sourceHeaders targetData targetHeaders km =
        (sRow, tRow) :: rest →
      allStrs (analyzerValues sourceColumns sourceHeaders sRow) = some sStrs →
      allStrs (analyzerValues targetColumns targetHeaders tRow) = some tStrs →
      tStrs.length = 1 →
      ((String.join sStrs = tStrs.headD "" →
        analyzeColumnRelationship sourceColumns sourceData sourceHeaders targetColumns
          targetData targetHeaders km =
          ⟨String.intercalate " + " sourceColumns ++ " = " ++ targetColumns.headD "" ++
            " (concatenation)", 90⟩) ∧
       (String.join sStrs ≠ tStrs.headD "" →
        analyzeColumnRelationship sourceColumns sourceData sourceHeaders targetColumns
          targetData targetHeaders km = ⟨"Custom formula needed", 0⟩))) := by
  refine ⟨?_, ?_, ?_⟩
  · intro hp
    unfold analyzeColumnRelationship
    rw [hp]
  · intro sRow tRow rest sNums tNums hp hs ht hne hlen1
    have hsvlen : sNums.length = (analyzerValues sourceColumns sourceHeaders sRow).length :=
      allNums_length hs
    have hpos : 0 < (analyzerValues sourceColumns sourceHeaders sRow).length := by
      rw [← hsvlen]
      exact List.length_pos.mpr hne
    unfold analyzeColumnRelationship
    rw [hp]
    dsimp only
    rw [hs, ht]
    dsimp only
    rw [if_pos ⟨hpos, hlen1⟩]
    refine ⟨?_, ?_, ?_, ?_⟩
    · intro hsum
      rw [if_pos hsum]
    · intro hnsum h2 hdiff
      rw [if_neg hnsum, if_pos ⟨by omega, hdiff⟩]
    · intro hnsum hndiff hprod
      rw [if_neg hnsum, if_neg (by rw [← hsvlen]; exact hndiff), if_pos hprod]
    · intro hnsum hndiff hnprod
      rw [if_neg hnsum, if_neg (by rw [← hsvlen]; exact hndiff), if_neg hnprod,
        allStrs_of_allNums hs hne]
  · intro sRow tRow rest sStrs tStrs hp hsS htS hlen1
    have htn : allNums (analyzerValues targetColumns targetHeaders tRow) = none :=
      allNums_of_allStrs htS (by intro h; rw [h] at hlen1; cases hlen1)
    unfold analyzeColumnRelationship
    rw [hp]
    dsimp only
    rw [htn, hsS, htS]
    cases hsn : allNums (analyzerValues sourceColumns sourceHeaders sRow) <;>
    · dsimp only
      constructor
      · intro hjoin
        rw [if_pos ⟨hlen1, hjoin⟩]
      · intro hnjoin
        rw [if_neg (fun hc => hnjoin hc.2)]

/-- C9 witness: on the row pair `(k1, 2, 3)` / `(k1, 5)` the sum rule
fires with confidence 95. -/
theorem c9_analyzer_heuristic_witness :
    analyzeColumnRelationship ["P", "Q"] [["k1", "2", "3"]] ["K", "P", "Q"]
      ["T"] [["k1", "5"]] ["K", "T"] ("K", "K") =
      ⟨String.intercalate " + " ["P", "Q"] ++ " = " ++ (["T"] : List String).headD "", 95⟩ :=
  ((c9_analyzer_heuristic ["P", "Q"] [["k1", "2", "3"]] ["K", "P", "Q"]
      ["T"] [["k1", "5"]] ["K", "T"] ("K", "K")).2.1
    ["k1", "2", "3"] ["k1", "5"] [] [2, 3] [5]
    (by decide) (by decide) (by decide) (by decide) (by decide)).1 (by norm_num)

/-! ## Reconciliation engine invariants (shared by C1, C2, C5, C10) -/

/-- Fold invariant principle. -/
theorem foldl_invariant {σ α : Type} (P : σ → Prop) (step : σ → α → σ) :
    ∀ (l : List α) (init : σ), P init → (∀ s a, P s → P (step s a)) →
      P (l.foldl step init) := by
  intro l
  induction l with
  | nil => intro init h0 _; exact h0
  | cons hd tl ih =>
    intro init h0 hstep
    exact ih (step init hd) (hstep init hd h0) hstep

/-- `lookup` after an in-place replacement at the same key. -/
theorem lookup_map_replace {E : Type} (k : String) (v : E) :
    ∀ m : JsMap E, m.any (fun p => p.1 = k) = true →
      (m.map (fun p => if p.1 = k then (k, v) else p)).lookup k = some v := by
  intro m
  induction m with
  | nil => intro h; cases h
  | cons p rest ih =>
    intro h
    by_cases hp : p.1 = k
    · simp [hp, List.lookup_cons]
    · rw [List.map_cons, if_neg hp, List.lookup_cons]
      have hbeq : (k == p.1) = false := by
        simp only [beq_eq_false_iff_ne, ne_eq]
        exact fun hc => hp hc.symm
      rw [hbeq]
      refine ih ?_
      simp only [List.any_cons, Bool.or_eq_true, decide_eq_true_eq] at h
      rcases h with h | h
      · exact absurd h hp
      · exact h

/-- `lookup` after appending a binding for an absent key. -/
theorem lookup_append_single {E : Type} (k : String) (v : E) :
    ∀ m : JsMap E, m.any (fun p => p.1 = k) = false →
      (m ++ [(k, v)]).lookup k = some v := by
  intro m
  induction m with
  | nil => intro _; simp [List.lookup_cons]
  | cons p rest ih =>
    intro h
    simp only [List.any_cons, Bool.or_eq_false_iff, decide_eq_false_iff_not] at h
    rw [List.cons_append, List.lookup_cons]
    have hbeq : (k == p.1) = false := by
      simp only [beq_eq_false_iff_ne, ne_eq]
      exact fun hc => h.1 hc.symm
    rw [hbeq]
    exact ih h.2

/-- `get` after `set` at the same key. -/
theorem jsGet_jsSet_self {E : Type} (m : JsMap E) (k : String) (v : E) :
    jsGet (jsSet m k v) k = some v := by
  unfold jsSet jsGet
  split_ifs with h
  · exact lookup_map_replace k v m h
  · exact lookup_append_single k v m (Bool.eq_false_iff.mpr h)

/-- In-place replacement does not change other keys. -/
theorem lookup_map_replace_ne {E : Type} (k k2 : String) (v : E) (hne : k2 ≠ k) :
    ∀ m : JsMap E,
      (m.map (fun p => if p.1 = k then (k, v) else p)).lookup k2 = m.lookup k2 := by
  intro m
  induction m with
  | nil => rfl
  | cons p rest ih =>
    by_cases hp : p.1 = k
    · rw [List.map_cons, if_pos hp, List.lookup_cons, List.lookup_cons]
      have h1 : (k2 == k) = false := by simp [hne]
      have h2 : (k2 == p.1) = false := by simp [hp ▸ hne]
      rw [h1, h2]
      exact ih
    · rw [List.map_cons, if_neg hp, List.lookup_cons, List.lookup_cons]
      cases hbeq : k2 == p.1 with
      | true => rfl
      | false => exact ih

/-- Appending a binding for another key does not change a lookup. -/
theorem lookup_append_single_ne {E : Type} (k k2 : String) (v : E) (hne : k2 ≠ k) :
    ∀ m : JsMap E, (m ++ [(k, v)]).lookup k2 = m.lookup k2 := by
  intro m
  induction m with
  | nil =>
    simp only [List.nil_append, List.lookup_cons, List.lookup_nil]
    have h1 : (k2 == k) = false := by simp [hne]
    rw [h1]
  | cons p rest ih =>
    rw [List.cons_append, List.lookup_cons, List.lookup_cons]
    cases hbeq : k2 == p.1 with
    | true => rfl
    | false => exact ih

/-- `get` after `set` at a different key. -/
theorem jsGet_jsSet_ne {E : Type} (m : JsMap E) (k k2 : String) (v : E)
    (hne : k2 ≠ k) : jsGet (jsSet m k v) k2 = jsGet m k2 := by
  unfold jsSet jsGet
  split_ifs with h
  · exact lookup_map_replace_ne k k2 v hne m
  · exact lookup_append_single_ne k k2 v hne m

/-- In-place replacement preserves the key list. -/
theorem map_replace_keys {E : Type} (k : String) (v : E) :
    ∀ m : JsMap E,
      (m.map (fun p => if p.1 = k then (k, v) else p)).map Prod.fst = m.map Prod.fst := by
  intro m
  induction m with
  | nil => rfl
  | cons p rest ih =>
    by_cases hp : p.1 = k
    · simp only [List.map_cons, if_pos hp, ih]
      rw [hp]
    · simp only [List.map_cons, if_neg hp, ih]

/-- The key list after `set`: unchanged when present, appended when new. -/
theorem jsSet_keys {E : Type} (m : JsMap E) (k : String) (v : E) :
    (jsSet m k v).map Prod.fst =
      if m.any (fun p => p.1 = k) then m.map Prod.fst else m.map Prod.fst ++ [k] := by
  unfold jsSet
  split_ifs with h
  · exact map_replace_keys k v m
  · simp

/-- Key presence is the `any` test of `set`. -/
theorem any_key_iff {E : Type} (m : JsMap E) (k : String) :
    m.any (fun p => p.1 = k) = true ↔ k ∈ m.map Prod.fst := by
  simp only [List.any_eq_true, decide_eq_true_eq, List.mem_map]

/-- A lookup succeeds exactly when the key is present. -/
theorem jsGet_isSome_iff {E : Type} (k : String) :
    ∀ m : JsMap E, (jsGet m k).isSome = true ↔ k ∈ m.map Prod.fst := by
  intro m
  induction m with
  | nil => simp [jsGet]
  | cons p rest ih =>
    unfold jsGet at ih ⊢
    rw [List.lookup_cons]
    cases hbeq : k == p.1 with
    | true =>
      simp only [Option.isSome_some, List.map_cons, List.mem_cons, true_iff]
      exact Or.inl (eq_of_beq hbeq)
    | false =>
      rw [ih]
      simp only [List.map_cons, List.mem_cons]
      have : ¬ k = p.1 := by simpa using hbeq
      constructor
      · exact Or.inr
      · rintro (h | h)
        · exact absurd h this
        · exact h

/-- Deleting a present key from a nodup-key map shrinks it by one. -/
theorem jsDelete_length {E : Type} (m : JsMap E) (k : String)
    (hmem : k ∈ m.map Prod.fst) (hnd : (m.map Prod.fst).Nodup) :
    (jsDelete m k).length + 1 = m.length := by
  unfold jsDelete
  induction m with
  | nil => cases hmem
  | cons p rest ih =>
    rw [List.map_cons, List.nodup_cons] at hnd
    by_cases hp : p.1 = k
    · rw [List.filter_cons_of_neg (by simp [hp])]
      have hself : rest.filter (fun q => q.1 ≠ k) = rest := by
        apply List.filter_eq_self.mpr
        intro q hq
        simp only [ne_eq, decide_eq_true_eq]
        intro hc
        apply hnd.1
        rw [hp, ← hc]
        exact List.mem_map_of_mem Prod.fst hq
      rw [hself, List.length_cons]
    · rw [List.filter_cons_of_pos (by simp [hp])]
      have hmem2 : k ∈ rest.map Prod.fst := by
        rw [List.map_cons, List.mem_cons] at hmem
        rcases hmem with h | h
        · exact absurd h.symm hp
        · exact h
      have hih := ih hmem2 hnd.2
      simp only [List.length_cons]
      omega

/-- Deleting preserves nodup keys. -/
theorem jsDelete_keys_nodup {E : Type} (m : JsMap E) (k : String)
    (hnd : (m.map Prod.fst).Nodup) : ((jsDelete m k).map Prod.fst).Nodup := by
  unfold jsDelete
  induction m with
  | nil => exact List.nodup_nil
  | cons p rest ih =>
    rw [List.map_cons, List.nodup_cons] at hnd
    by_cases hp : p.1 = k
    · rw [List.filter_cons_of_neg (by simp [hp])]
      exact ih hnd.2
    · rw [List.filter_cons_of_pos (by simp [hp]), List.map_cons, List.nodup_cons]
      refine ⟨?_, ih hnd.2⟩
      intro hc
      obtain ⟨q, hq, he⟩ := List.mem_map.mp hc
      exact hnd.1 (he ▸ List.mem_map_of_mem Prod.fst (List.mem_of_mem_filter hq))

/-- Deleting a key removes it. -/
theorem jsGet_jsDelete_self {E : Type} (m : JsMap E) (k : String) :
    jsGet (jsDelete m k) k = none := by
  unfold jsDelete jsGet
  induction m with
  | nil => rfl
  | cons p rest ih =>
    by_cases hp : p.1 = k
    · rw [List.filter_cons_of_neg (by simp [hp])]
      exact ih
    · rw [List.filter_cons_of_pos (by simp [hp]), List.lookup_cons]
      have hbeq : (k == p.1) = false := by
        simp only [beq_eq_false_iff_ne, ne_eq]
        exact fun hc => hp hc.symm
      rw [hbeq]
      exact ih

/-- `set` preserves nodup keys. -/
theorem jsSet_keys_nodup {E : Type} (m : JsMap E) (k : String) (v : E)
    (hnd : (m.map Prod.fst).Nodup) : ((jsSet m k v).map Prod.fst).Nodup := by
  rw [jsSet_keys]
  split_ifs with h
  · exact hnd
  · rw [List.nodup_append]
    refine ⟨hnd, List.nodup_singleton k, ?_⟩
    intro x hx
    simp only [List.mem_singleton]
    intro hc
    subst hc
    exact absurd ((any_key_iff m x).mpr hx) (by simpa using h)

/-- Every step of the target pass either skips a blank key, appends one
unmatched-target row on a lookup miss, or consumes the source entry and
appends one classified matched transaction. -/
theorem targetStep_shape (inp : ReconInput) (st : TargetPhaseState) (row : List String) :
    (targetStep inp st row = st ∧ targetRowKey inp row = "") ∨
    (∃ ut : UnmatchedTransaction,
      targetStep inp st row = { st with unmatchedTarget := st.unmatchedTarget ++ [ut] } ∧
      ut.type = Side.target ∧ jsGet st.map (targetRowKey inp row) = none ∧
      targetRowKey inp row ≠ "") ∨
    (∃ (tx : MatchedTransaction) (a b c : ℚ),
      targetStep inp st row =
        { st with
          map := jsDelete st.map (targetRowKey inp row)
          matched := st.matched ++ [tx]
          totalSourceValue := a
          totalTargetValue := b
          totalDifference := c
          perfectMatches := st.perfectMatches +
            (if tx.status = MatchStatus.matched then 1 else 0)
          valueMismatches := st.valueMismatches +
            (if tx.status = MatchStatus.value_mismatch then 1 else 0) } ∧
      matchedClassified tx ∧ (jsGet st.map (targetRowKey inp row)).isSome ∧
      targetRowKey inp row ≠ "") := by
  by_cases hk : targetRowKey inp row = ""
  · left
    refine ⟨?_, hk⟩
    unfold targetStep
    rw [if_pos hk]
  · right
    cases hget : jsGet st.map (targetRowKey inp row) with
    | none =>
      left
      refine ⟨⟨Side.target, mkRowObj inp.targetData.headers row, targetRowKey inp row,
        "No matching transaction with ID \x27" ++ targetRowKey inp row ++
          "\x27 found in source data"⟩, ?_, rfl, rfl, hk⟩
      unfold targetStep
      rw [if_neg hk]
      dsimp only
      rw [hget]
    | some sourceItem =>
      obtain ⟨srow, sval⟩ := sourceItem
      right
      cases sval with
      | num sv =>
        cases htv : evaluateFormulaForRow inp.reconciliationColumns.targetColumns
            (mkRowObj inp.targetData.headers row) inp.reconciliationColumns.formula false with
        | num tv =>
          by_cases habs : |sv - tv| < 0.001
          · refine ⟨⟨srow, mkRowObj inp.targetData.headers row, .num sv, .num tv,
              some 0, targetRowKey inp row, .matched⟩,
              st.totalSourceValue + sv, st.totalTargetValue + tv,
              st.totalDifference + (sv - tv), ?_, ?_, rfl, hk⟩
            · unfold targetStep
              rw [if_neg hk]
              dsimp only
              rw [hget, htv]
              dsimp only
              rw [if_pos habs]
              rfl
            · intro sv2 tv2 h1 h2
              cases h1
              cases h2
              exact ⟨fun _ => ⟨rfl, rfl⟩, fun hn => absurd habs hn⟩
          · refine ⟨⟨srow, mkRowObj inp.targetData.headers row, .num sv, .num tv,
              some (sv - tv), targetRowKey inp row, .value_mismatch⟩,
              st.totalSourceValue + sv, st.totalTargetValue + tv,
              st.totalDifference + (sv - tv), ?_, ?_, rfl, hk⟩
            · unfold targetStep
              rw [if_neg hk]
              dsimp only
              rw [hget, htv]
              dsimp only
              rw [if_neg habs]
              rfl
            · intro sv2 tv2 h1 h2
              cases h1
              cases h2
              exact ⟨fun hy => absurd hy habs, fun _ => ⟨rfl, rfl⟩⟩
        | str t =>
          refine ⟨⟨srow, mkRowObj inp.targetData.headers row, .num sv, .str t,
            none, targetRowKey inp row, .value_mismatch⟩,
            st.totalSourceValue, st.totalTargetValue, st.totalDifference,
            ?_, ?_, rfl, hk⟩
          · unfold targetStep
            rw [if_neg hk]
            dsimp only
            rw [hget, htv]
            dsimp only
            rw [if_pos (by simp)]
            rfl
          · intro sv2 tv2 h1 h2
            cases h2
      | str s2 =>
        cases htv : evaluateFormulaForRow inp.reconciliationColumns.targetColumns
            (mkRowObj inp.targetData.headers row) inp.reconciliationColumns.formula false with
        | num tv =>
          refine ⟨⟨srow, mkRowObj inp.targetData.headers row, .str s2, .num tv,
            none, targetRowKey inp row, .value_mismatch⟩,
            st.totalSourceValue, st.totalTargetValue, st.totalDifference,
            ?_, ?_, rfl, hk⟩
          · unfold targetStep
            rw [if_neg hk]
            dsimp only
            rw [hget, htv]
            dsimp only
            rw [if_pos (by simp)]
            rfl
          · intro sv2 tv2 h1 h2
            cases h1
        | str t =>
          by_cases heq : s2 = t
          · refine ⟨⟨srow, mkRowObj inp.targetData.headers row, .str s2, .str t,
              none, targetRowKey inp row, .matched⟩,
              st.totalSourceValue, st.totalTargetValue, st.totalDifference,
              ?_, ?_, rfl, hk⟩
            · unfold targetStep
              rw [if_neg hk]
              dsimp only
              rw [hget, htv]
              dsimp only
              rw [if_neg (by simp [heq])]
              rfl
            · intro sv2 tv2 h1 h2
              cases h1
          · refine ⟨⟨srow, mkRowObj inp.targetData.headers row, .str s2, .str t,
              none, targetRowKey inp row, .value_mismatch⟩,
              st.totalSourceValue, st.totalTargetValue, st.totalDifference,
              ?_, ?_, rfl, hk⟩
            · unfold targetStep
              rw [if_neg hk]
              dsimp only
              rw [hget, htv]
              dsimp only
              rw [if_pos (by simp [heq])]
              rfl
            · intro sv2 tv2 h1 h2
              cases h1

/-- One target step preserves the state invariant and the two counting
equations. -/
theorem targetStep_inv (inp : ReconInput) (st : TargetPhaseState) (row : List String)
    (h : stateInv st) :
    stateInv (targetStep inp st row) ∧
    (targetStep inp st row).matched.length + (targetStep inp st row).map.length =
      st.matched.length + st.map.length ∧
    (targetStep inp st row).matched.length +
        (targetStep inp st row).unmatchedTarget.length =
      st.matched.length + st.unmatchedTarget.length +
        (if targetRowKey inp row = "" then 0 else 1) := by
  obtain ⟨hcls, hpm, hvm, hnd, hside⟩ := h
  rcases targetStep_shape inp st row with ⟨heq, hk⟩ | ⟨ut, heq, hut, _, hk⟩ |
    ⟨tx, a, b, c, heq, htx, hsome, hk⟩
  · rw [heq, if_pos hk]
    exact ⟨⟨hcls, hpm, hvm, hnd, hside⟩, rfl, by omega⟩
  · rw [heq, if_neg hk]
    refine ⟨⟨hcls, hpm, hvm, hnd, ?_⟩, rfl, ?_⟩
    · intro u hu
      rcases List.mem_append.mp hu with h | h
      · exact hside u h
      · rw [List.mem_singleton.mp h]
        exact hut
    · dsimp only
      rw [List.length_append]
      simp only [List.length_cons, List.length_nil]
      omega
  · rw [heq, if_neg hk]
    have hmem : targetRowKey inp row ∈ st.map.map Prod.fst := (jsGet_isSome_iff _ _).mp hsome
    have hdel := jsDelete_length st.map (targetRowKey inp row) hmem hnd
    refine ⟨⟨?_, ?_, ?_, jsDelete_keys_nodup _ _ hnd, hside⟩, ?_, ?_⟩
    · intro m hm
      rcases List.mem_append.mp hm with h | h
      · exact hcls m h
      · rw [List.mem_singleton.mp h]
        exact htx
    · dsimp only
      cases hst : tx.status <;>
        simp [List.countP_append, List.countP_cons, hst, hpm]
    · dsimp only
      cases hst : tx.status <;>
        simp [List.countP_append, List.countP_cons, hst, hvm]
    · dsimp only
      rw [List.length_append]
      simp only [List.length_cons, List.length_nil]
      omega
    · dsimp only
      rw [List.length_append]
      simp only [List.length_cons, List.length_nil]
      omega

/-- The target pass preserves the invariant; matched entries plus the
remaining lookup are constant, and matched entries plus unmatched-target
entries count the non-blank-key target rows. -/
theorem targetFold_inv (inp : ReconInput) :
    ∀ (l : List (List String)) (st : TargetPhaseState), stateInv st →
      stateInv (l.foldl (targetStep inp) st) ∧
      (l.foldl (targetStep inp) st).matched.length +
          (l.foldl (targetStep inp) st).map.length =
        st.matched.length + st.map.length ∧
      (l.foldl (targetStep inp) st).matched.length +
          (l.foldl (targetStep inp) st).unmatchedTarget.length =
        st.matched.length + st.unmatchedTarget.length +
          l.countP (fun r => targetRowKey inp r ≠ "") := by
  intro l
  induction l with
  | nil =>
    intro st h
    exact ⟨h, rfl, by simp⟩
  | cons hd tl ih =>
    intro st h
    obtain ⟨h1, h2, h3⟩ := targetStep_inv inp st hd h
    obtain ⟨g1, g2, g3⟩ := ih (targetStep inp st hd) h1
    rw [List.foldl_cons]
    refine ⟨g1, by omega, ?_⟩
    rw [g3, List.countP_cons]
    by_cases hk : targetRowKey inp hd = ""
    · simp [hk] at h3 ⊢
      omega
    · simp [hk] at h3 ⊢
      omega

/-- Key membership after `set`. -/
theorem mem_jsSet_keys {E : Type} (m : JsMap E) (k : String) (v : E) (k2 : String) :
    k2 ∈ (jsSet m k v).map Prod.fst ↔ k2 ∈ m.map Prod.fst ∨ k2 = k := by
  rw [jsSet_keys]
  split_ifs with h
  · constructor
    · exact Or.inl
    · rintro (hm | hm)
      · exact hm
      · subst hm
        exact (any_key_iff m k2).mp h
  · rw [List.mem_append, List.mem_singleton]

/-- The source-map fold keeps keys nodup, and its keys are exactly the
non-empty keys of the processed rows plus those already present. -/
theorem sourceMapFold_keys (inp : ReconInput) :
    ∀ (l : List (List String)) (m : JsMap SourceEntry),
      (m.map Prod.fst).Nodup →
      ((l.foldl (sourceMapStep inp) m).map Prod.fst).Nodup ∧
      (∀ k, k ∈ (l.foldl (sourceMapStep inp) m).map Prod.fst ↔
        (k ∈ m.map Prod.fst ∨ (k ∈ l.map (sourceRowKey inp) ∧ k ≠ ""))) := by
  intro l
  induction l with
  | nil =>
    intro m h
    exact ⟨h, fun k => by simp⟩
  | cons hd tl ih =>
    intro m h
    rw [List.foldl_cons]
    by_cases hk : sourceRowKey inp hd = ""
    · have hstep : sourceMapStep inp m hd = m := by
        unfold sourceMapStep
        rw [if_neg (by simpa using hk)]
      rw [hstep]
      obtain ⟨n1, n2⟩ := ih m h
      refine ⟨n1, fun k => ?_⟩
      rw [n2 k]
      simp only [List.map_cons, List.mem_cons]
      constructor
      · rintro (hm | ⟨hm, hne⟩)
        · exact Or.inl hm
        · exact Or.inr ⟨Or.inr hm, hne⟩
      · rintro (hm | ⟨hm | hm, hne⟩)
        · exact Or.inl hm
        · exact absurd (hm.trans hk) hne
        · exact Or.inr ⟨hm, hne⟩
    · have hstep : sourceMapStep inp m hd =
          jsSet m (sourceRowKey inp hd) (mkSourceEntry inp hd) := by
        unfold sourceMapStep
        rw [if_pos (by simpa using hk)]
      rw [hstep]
      obtain ⟨n1, n2⟩ := ih _ (jsSet_keys_nodup m _ _ h)
      refine ⟨n1, fun k => ?_⟩
      rw [n2 k, mem_jsSet_keys]
      simp only [List.map_cons, List.mem_cons]
      constructor
      · rintro ((hm | hm) | ⟨hm, hne⟩)
        · exact Or.inl hm
        · subst hm
          exact Or.inr ⟨Or.inl rfl, hk⟩
        · exact Or.inr ⟨Or.inr hm, hne⟩
      · rintro (hm | ⟨hm | hm, hne⟩)
        · exact Or.inl (Or.inl hm)
        · exact Or.inl (Or.inr hm)
        · exact Or.inr ⟨hm, hne⟩

/-- The source lookup's keys are nodup. -/
theorem buildSourceMap_nodup (inp : ReconInput) :
    ((buildSourceMap inp).map Prod.fst).Nodup :=
  (sourceMapFold_keys inp inp.sourceData.data [] (by simp)).1

/-- The source lookup has one entry per distinct non-empty source key. -/
theorem buildSourceMap_length (inp : ReconInput) :
    (buildSourceMap inp).length =
      ((inp.sourceData.data.map (sourceRowKey inp)).filter
        (fun k => k ≠ "")).dedup.length := by
  obtain ⟨hnd, hmem⟩ := sourceMapFold_keys inp inp.sourceData.data [] (by simp)
  have hperm : ((buildSourceMap inp).map Prod.fst).Perm
      ((inp.sourceData.data.map (sourceRowKey inp)).filter (fun k => k ≠ "")).dedup := by
    refine (List.perm_ext_iff_of_nodup hnd (List.nodup_dedup _)).mpr fun k => ?_
    rw [List.mem_dedup, List.mem_filter, hmem k]
    simp
  have := hperm.length_eq
  rwa [List.length_map] at this

/-! ## C2 — numeric match tolerance -/

/-- C2: for every key-matched pair with numeric values, the difference is
source minus target; below the 0.001 tolerance the pair is `matched`
with the difference normalised to 0, otherwise it is `value_mismatch`
with the raw difference, and the two summary counters count exactly the
transactions of each status. -/
theorem c2_numeric_tolerance (inp : ReconInput) (m : MatchedTransaction)
    (hm : m ∈ (performReconciliation inp).matched) (sv tv : ℚ)
    (hs : m.sourceValue = .num sv) (ht : m.targetValue = .num tv) :
    (|sv - tv| < 0.001 → m.status = MatchStatus.matched ∧ m.difference = some 0) ∧
    (¬ |sv - tv| < 0.001 → m.status = MatchStatus.value_mismatch ∧
      m.difference = some (sv - tv)) ∧
    (performReconciliation inp).summary.perfectMatches =
      (performReconciliation inp).matched.countP
        (fun x => x.status == MatchStatus.matched) ∧
    (performReconciliation inp).summary.valueMismatches =
      (performReconciliation inp).matched.countP
        (fun x => x.status == MatchStatus.value_mismatch) := by
  have hinit : stateInv ⟨buildSourceMap inp, [], [], 0, 0, 0, 0, 0⟩ :=
    ⟨by simp, rfl, rfl, buildSourceMap_nodup inp, by simp⟩
  obtain ⟨⟨hcls, hpm, hvm, _, _⟩, _, _⟩ :=
    targetFold_inv inp inp.targetData.data _ hinit
  have hmm : m ∈ (inp.targetData.data.foldl (targetStep inp)
      ⟨buildSourceMap inp, [], [], 0, 0, 0, 0, 0⟩).matched := hm
  have h1 := hcls m hmm sv tv hs ht
  exact ⟨h1.1, h1.2, hpm, hvm⟩

/-- C2 witness: in `toleranceInput` the pair differing by exactly 0.0005
is matched with difference 0, and the pair differing by 0.002 is a value
mismatch carrying the raw difference. -/
theorem c2_numeric_tolerance_witness :
    (toleranceMatchedK.status = MatchStatus.matched ∧
      toleranceMatchedK.difference = some 0) ∧
    (toleranceMatchedL.status = MatchStatus.value_mismatch ∧
      toleranceMatchedL.difference = some (5001 / 500 - 10)) :=
  ⟨(c2_numeric_tolerance toleranceInput toleranceMatchedK (by decide) (20001 / 2000) 10
      (by decide) (by decide)).1 (by decide),
   (c2_numeric_tolerance toleranceInput toleranceMatchedL (by decide) (5001 / 500) 10
      (by decide) (by decide)).2.1 (by decide)⟩

/-! ## C5 — order of the unmatched output -/

/-- Filtering a source-block/target-block concatenation by side returns
the blocks. -/
theorem filter_side_eq (us ut : List UnmatchedTransaction)
    (h1 : ∀ u ∈ us, u.type = Side.source) (h2 : ∀ u ∈ ut, u.type = Side.target) :
    (us ++ ut).filter (fun u => u.type == Side.source) = us ∧
    (us ++ ut).filter (fun u => u.type == Side.target) = ut := by
  rw [List.filter_append, List.filter_append]
  have e1 : us.filter (fun u => u.type == Side.source) = us :=
    List.filter_eq_self.mpr fun u hu => by rw [h1 u hu]; rfl
  have e2 : ut.filter (fun u => u.type == Side.source) = [] :=
    List.filter_eq_nil_iff.mpr fun u hu => by rw [h2 u hu]; decide
  have e3 : us.filter (fun u => u.type == Side.target) = [] :=
    List.filter_eq_nil_iff.mpr fun u hu => by rw [h1 u hu]; decide
  have e4 : ut.filter (fun u => u.type == Side.target) = ut :=
    List.filter_eq_self.mpr fun u hu => by rw [h2 u hu]; rfl
  rw [e1, e2, e3, e4]
  exact ⟨List.append_nil us, rfl⟩

/-- C5 (amended): in the unmatched output all unmatched-source entries
come BEFORE all unmatched-target entries: the output is the source-side
block followed by the target-side block. -/
theorem c5_unmatched_order (inp : ReconInput) :
    ((performReconciliation inp).unmatched.filter
        (fun u => u.type == Side.source)) ++
      ((performReconciliation inp).unmatched.filter
        (fun u => u.type == Side.target)) =
      (performReconciliation inp).unmatched := by
  have hinit : stateInv ⟨buildSourceMap inp, [], [], 0, 0, 0, 0, 0⟩ :=
    ⟨by simp, rfl, rfl, buildSourceMap_nodup inp, by simp⟩
  obtain ⟨⟨_, _, _, _, hside⟩, _, _⟩ :=
    targetFold_inv inp inp.targetData.data _ hinit
  have hu : (performReconciliation inp).unmatched =
      ((inp.targetData.data.foldl (targetStep inp)
          ⟨buildSourceMap inp, [], [], 0, 0, 0, 0, 0⟩).map.map (fun p =>
        (⟨Side.source, p.2.row, p.1,
          "No matching transaction with ID \x27" ++ p.1 ++
            "\x27 found in target data"⟩ : UnmatchedTransaction))) ++
      (inp.targetData.data.foldl (targetStep inp)
          ⟨buildSourceMap inp, [], [], 0, 0, 0, 0, 0⟩).unmatchedTarget := rfl
  have hsrc : ∀ u ∈ (inp.targetData.data.foldl (targetStep inp)
      ⟨buildSourceMap inp, [], [], 0, 0, 0, 0, 0⟩).map.map (fun p =>
        (⟨Side.source, p.2.row, p.1,
          "No matching transaction with ID \x27" ++ p.1 ++
            "\x27 found in target data"⟩ : UnmatchedTransaction)),
      u.type = Side.source := by
    intro u hu2
    obtain ⟨p, _, he⟩ := List.mem_map.mp hu2
    rw [← he]
  obtain ⟨e1, e2⟩ := filter_side_eq _ _ hsrc hside
  rw [hu, e1, e2]

/-- C5 counterexample: with one source miss and one target miss the
output order is source first, so the claimed target-then-source layout
fails. -/
theorem c5_claim_counterexample :
    (performReconciliation orderInput).unmatched.map (fun u => u.type) =
      [Side.source, Side.target] ∧
    ¬ (((performReconciliation orderInput).unmatched.filter
          (fun u => u.type == Side.target)) ++
        ((performReconciliation orderInput).unmatched.filter
          (fun u => u.type == Side.source)) =
        (performReconciliation orderInput).unmatched) := by
  constructor
  · decide
  · decide

/-! ## C1 — join completeness -/

/-- C1 (amended): matched plus unmatched-source plus unmatched-target
equals (distinct non-empty source keys) plus (target rows with non-empty
key) minus matched — every distinct non-empty source key and every
non-empty-keyed target row lands in exactly one bucket.  (Duplicate
source keys collapse in the lookup, so source ROWS do not all appear.) -/
theorem c1_join_completeness (inp : ReconInput) :
    ((performReconciliation inp).matched.length : ℤ) +
      ((performReconciliation inp).unmatched.filter
        (fun u => u.type == Side.source)).length +
      ((performReconciliation inp).unmatched.filter
        (fun u => u.type == Side.target)).length =
    (((inp.sourceData.data.map (sourceRowKey inp)).filter
        (fun k => k ≠ "")).dedup.length : ℤ) +
      ((inp.targetData.data.filter (fun r => targetRowKey inp r ≠ "")).length : ℤ) -
      (performReconciliation inp).matched.length := by
  have hinit : stateInv ⟨buildSourceMap inp, [], [], 0, 0, 0, 0, 0⟩ :=
    ⟨by simp, rfl, rfl, buildSourceMap_nodup inp, by simp⟩
  obtain ⟨⟨_, _, _, _, hside⟩, g2, g3⟩ :=
    targetFold_inv inp inp.targetData.data _ hinit
  have hu : (performReconciliation inp).unmatched =
      ((inp.targetData.data.foldl (targetStep inp)
          ⟨buildSourceMap inp, [], [], 0, 0, 0, 0, 0⟩).map.map (fun p =>
        (⟨Side.source, p.2.row, p.1,
          "No matching transaction with ID \x27" ++ p.1 ++
            "\x27 found in target data"⟩ : UnmatchedTransaction))) ++
      (inp.targetData.data.foldl (targetStep inp)
          ⟨buildSourceMap inp, [], [], 0, 0, 0, 0, 0⟩).unmatchedTarget := rfl
  have hsrc : ∀ u ∈ (inp.targetData.data.foldl (targetStep inp)
      ⟨buildSourceMap inp, [], [], 0, 0, 0, 0, 0⟩).map.map (fun p =>
        (⟨Side.source, p.2.row, p.1,
          "No matching transaction with ID \x27" ++ p.1 ++
            "\x27 found in target data"⟩ : UnmatchedTransaction)),
      u.type = Side.source := by
    intro u hu2
    obtain ⟨p, _, he⟩ := List.mem_map.mp hu2
    rw [← he]
  obtain ⟨e1, e2⟩ := filter_side_eq _ _ hsrc hside
  have hmatched : (performReconciliation inp).matched =
      (inp.targetData.data.foldl (targetStep inp)
        ⟨buildSourceMap inp, [], [], 0, 0, 0, 0, 0⟩).matched := rfl
  rw [hu, e1, e2, hmatched, List.length_map]
  have hlen := buildSourceMap_length inp
  have hcount : inp.targetData.data.countP (fun r => targetRowKey inp r ≠ "") =
      (inp.targetData.data.filter (fun r => targetRowKey inp r ≠ "")).length :=
    List.countP_eq_length_filter _ _
  simp only [List.length_nil] at g2 g3
  rw [hcount] at g3
  rw [show (buildSourceMap inp).length =
    ((inp.sourceData.data.map (sourceRowKey inp)).filter
      (fun k => k ≠ "")).dedup.length from hlen] at g2
  omega

/-- C1 counterexample: two source rows with the same key `K` and an empty
target table put only one row in a bucket, so the claimed equation over
source ROW counts fails (1 ≠ 2). -/
theorem c1_claim_counterexample :
    ¬ (((performReconciliation duplicateKeyInput).matched.length : ℤ) +
        ((performReconciliation duplicateKeyInput).unmatched.filter
          (fun u => u.type == Side.source)).length +
        ((performReconciliation duplicateKeyInput).unmatched.filter
          (fun u => u.type == Side.target)).length =
      ((duplicateKeyInput.sourceData.data.filter
          (fun r => sourceRowKey duplicateKeyInput r ≠ "")).length : ℤ) +
        ((duplicateKeyInput.targetData.data.filter
          (fun r => targetRowKey duplicateKeyInput r ≠ "")).length : ℤ) -
        (performReconciliation duplicateKeyInput).matched.length) := by
  decide

/-! ## C10 — duplicate source keys are last-wins -/

/-- A source-pass step with a non-empty key is a `Map.set`. -/
theorem sourceMapStep_eq_set (inp : ReconInput) (m : JsMap SourceEntry)
    (r : List String) (h : sourceRowKey inp r ≠ "") :
    sourceMapStep inp m r = jsSet m (sourceRowKey inp r) (mkSourceEntry inp r) := by
  unfold sourceMapStep
  rw [if_pos h]

/-- A source-pass step with an empty key is skipped. -/
theorem sourceMapStep_eq_skip (inp : ReconInput) (m : JsMap SourceEntry)
    (r : List String) (h : sourceRowKey inp r = "") :
    sourceMapStep inp m r = m := by
  unfold sourceMapStep
  rw [if_neg (by simpa using h)]

/-- A source-pass fold over rows that all avoid key `k` does not change
the lookup at `k`. -/
theorem sourceMapFold_get_of_avoid (inp : ReconInput) :
    ∀ (l : List (List String)) (m : JsMap SourceEntry) (k : String),
      (∀ r ∈ l, sourceRowKey inp r ≠ k) →
      jsGet (l.foldl (sourceMapStep inp) m) k = jsGet m k := by
  intro l
  induction l with
  | nil => intro m k _; rfl
  | cons r t ih =>
    intro m k h
    rw [List.foldl_cons, ih _ k (fun q hq => h q (List.mem_cons_of_mem r hq))]
    by_cases hk0 : sourceRowKey inp r = ""
    · rw [sourceMapStep_eq_skip inp m r hk0]
    · rw [sourceMapStep_eq_set inp m r hk0]
      exact jsGet_jsSet_ne m _ k _ (Ne.symm (h r (List.mem_cons_self r t)))

/-- In-place replacement at an absent key is the identity. -/
theorem map_replace_id {E : Type} (k : String) (v : E) :
    ∀ m : JsMap E, (∀ p ∈ m, p.1 ≠ k) →
      m.map (fun p => if p.1 = k then (k, v) else p) = m := by
  intro m
  induction m with
  | nil => intro _; rfl
  | cons p t ih =>
    intro h
    rw [List.map_cons, if_neg (h p (List.mem_cons_self p t)),
      ih fun q hq => h q (List.mem_cons_of_mem p hq)]

/-- `Map.set` skips over a leading binding with a different key. -/
theorem jsSet_cons_ne {E : Type} (k0 k : String) (w : E) (t : JsMap E) (v : E)
    (h : k0 ≠ k) : jsSet ((k0, w) :: t) k v = (k0, w) :: jsSet t k v := by
  unfold jsSet
  have hany : ((k0, w) :: t).any (fun p => p.1 = k) = t.any (fun p => p.1 = k) := by
    simp [h]
  rw [hany]
  cases ht : t.any (fun p => p.1 = k) with
  | true =>
    rw [if_pos rfl, if_pos rfl, List.map_cons]
    dsimp only
    rw [if_neg h]
  | false =>
    rw [if_neg (by simp), if_neg (by simp), List.cons_append]

/-- A lookup with nodup keys decomposes every `Map.set` at key `k` as a
replacement in a fixed context `a ++ _ :: b` that is independent of the
stored value. -/
theorem jsSet_shape {E : Type} (k : String) :
    ∀ m : JsMap E, (m.map Prod.fst).Nodup →
      ∃ a b : JsMap E, (∀ p ∈ a, p.1 ≠ k) ∧ (∀ p ∈ b, p.1 ≠ k) ∧
        ∀ v : E, jsSet m k v = a ++ (k, v) :: b := by
  intro m
  induction m with
  | nil =>
    intro _
    exact ⟨[], [], by simp, by simp, fun v => rfl⟩
  | cons p t ih =>
    intro hnd
    obtain ⟨k0, w⟩ := p
    rw [List.map_cons, List.nodup_cons] at hnd
    by_cases hk : k0 = k
    · subst hk
      have htne : ∀ q ∈ t, q.1 ≠ k0 := by
        intro q hq hc
        exact hnd.1 (List.mem_map.mpr ⟨q, hq, hc⟩)
      refine ⟨[], t, by simp, htne, fun v => ?_⟩
      have hany : ((k0, w) :: t).any (fun p => p.1 = k0) = true := by simp
      unfold jsSet
      rw [if_pos hany, List.map_cons]
      dsimp only
      rw [if_pos rfl, map_replace_id k0 v t htne, List.nil_append]
    · obtain ⟨a, b, ha, hb, hset⟩ := ih hnd.2
      refine ⟨(k0, w) :: a, b, ?_, hb, fun v => ?_⟩
      · intro q hq
        rcases List.mem_cons.mp hq with h1 | h1
        · rw [h1]; exact hk
        · exact ha q h1
      · rw [jsSet_cons_ne k0 k w t v hk, hset v, List.cons_append]

/-- `Map.set` at key `k` on a `dupShape`-decomposed lookup replaces the
distinguished binding in place. -/
theorem jsSet_shaped_self {E : Type} (k : String) (a b : JsMap E) (x v : E)
    (ha : ∀ p ∈ a, p.1 ≠ k) (hb : ∀ p ∈ b, p.1 ≠ k) :
    jsSet (a ++ (k, x) :: b) k v = a ++ (k, v) :: b := by
  have hany : (a ++ (k, x) :: b).any (fun p => p.1 = k) = true := by simp
  unfold jsSet
  rw [if_pos hany, List.map_append, List.map_cons]
  dsimp only
  rw [if_pos rfl, map_replace_id k v a ha, map_replace_id k v b hb]

/-- `Map.set` at another key preserves `dupShape`. -/
theorem jsSet_dupShape {E : Type} (k k2 : String) (v : E) (hne : k2 ≠ k)
    (m m2 : JsMap E) (h : dupShape k m m2) :
    dupShape k (jsSet m k2 v) (jsSet m2 k2 v) := by
  obtain ⟨a, b, x, y, ha, hb, hm, hm2⟩ := h
  subst hm hm2
  have hne2 : ¬(k = k2) := fun hc => hne hc.symm
  have hany : ∀ z : E, ((a ++ (k, z) :: b).any (fun p => p.1 = k2)) =
      (a.any (fun p => p.1 = k2) || b.any (fun p => p.1 = k2)) := by
    intro z
    simp [hne2]
  have hrepl : ∀ z : E,
      (a ++ (k, z) :: b).map (fun p => if p.1 = k2 then (k2, v) else p) =
      a.map (fun p => if p.1 = k2 then (k2, v) else p) ++ (k, z) ::
        b.map (fun p => if p.1 = k2 then (k2, v) else p) := by
    intro z
    rw [List.map_append, List.map_cons]
    dsimp only
    rw [if_neg hne2]
  cases hab : (a.any (fun p => p.1 = k2) || b.any (fun p => p.1 = k2)) with
  | true =>
    refine ⟨a.map (fun p => if p.1 = k2 then (k2, v) else p),
      b.map (fun p => if p.1 = k2 then (k2, v) else p), x, y, ?_, ?_, ?_, ?_⟩
    · intro p hp
      obtain ⟨q, hq, hqe⟩ := List.mem_map.mp hp
      subst hqe
      by_cases hq2 : q.1 = k2
      · rw [if_pos hq2]
        exact hne
      · rw [if_neg hq2]
        exact ha q hq
    · intro p hp
      obtain ⟨q, hq, hqe⟩ := List.mem_map.mp hp
      subst hqe
      by_cases hq2 : q.1 = k2
      · rw [if_pos hq2]
        exact hne
      · rw [if_neg hq2]
        exact hb q hq
    · unfold jsSet
      rw [if_pos ((hany x).trans hab)]
      exact hrepl x
    · unfold jsSet
      rw [if_pos ((hany y).trans hab)]
      exact hrepl y
  | false =>
    refine ⟨a, b ++ [(k2, v)], x, y, ha, ?_, ?_, ?_⟩
    · intro p hp
      rcases List.mem_append.mp hp with h1 | h1
      · exact hb p h1
      · rw [List.mem_singleton.mp h1]
        exact fun hc => hne hc
    · unfold jsSet
      rw [if_neg (by simp [(hany x).trans hab]), List.append_assoc, List.cons_append]
    · unfold jsSet
      rw [if_neg (by simp [(hany y).trans hab]), List.append_assoc, List.cons_append]

/-- `Map.set` at key `k` itself collapses a `dupShape` pair to equal
lookups: the overwritten value is forgotten. -/
theorem jsSet_dupShape_self {E : Type} (k : String) (v : E)
    (m m2 : JsMap E) (h : dupShape k m m2) :
    jsSet m k v = jsSet m2 k v := by
  obtain ⟨a, b, x, y, ha, hb, hm, hm2⟩ := h
  subst hm hm2
  rw [jsSet_shaped_self k a b x v ha hb, jsSet_shaped_self k a b y v ha hb]

/-- One source-pass step preserves `dupShape`. -/
theorem sourceMapStep_dupShape (inp : ReconInput) (k : String)
    (m m2 : JsMap SourceEntry) (r : List String) (h : dupShape k m m2) :
    dupShape k (sourceMapStep inp m r) (sourceMapStep inp m2 r) := by
  by_cases hk0 : sourceRowKey inp r = ""
  · rw [sourceMapStep_eq_skip inp m r hk0, sourceMapStep_eq_skip inp m2 r hk0]
    exact h
  · rw [sourceMapStep_eq_set inp m r hk0, sourceMapStep_eq_set inp m2 r hk0]
    by_cases hkk : sourceRowKey inp r = k
    · obtain ⟨a, b, x, y, ha, hb, hm, hm2⟩ := h
      subst hm hm2
      rw [hkk, jsSet_shaped_self k a b x _ ha hb, jsSet_shaped_self k a b y _ ha hb]
      exact ⟨a, b, _, _, ha, hb, rfl, rfl⟩
    · exact jsSet_dupShape k (sourceRowKey inp r) (mkSourceEntry inp r) hkk m m2 h

/-- The whole source-pass fold preserves `dupShape`. -/
theorem sourceMapFold_dupShape (inp : ReconInput) (k : String) :
    ∀ (l : List (List String)) (m m2 : JsMap SourceEntry),
      dupShape k m m2 →
      dupShape k (l.foldl (sourceMapStep inp) m) (l.foldl (sourceMapStep inp) m2) := by
  intro l
  induction l with
  | nil => intro m m2 h; exact h
  | cons r t ih =>
    intro m m2 h
    rw [List.foldl_cons, List.foldl_cons]
    exact ih _ _ (sourceMapStep_dupShape inp k m m2 r h)

/-- If key `k` is written once more after its last occurrence-free tail,
the lookup at `k` holds the entry of that last row. -/
theorem buildSourceMap_last_wins (inp : ReconInput) (l₁ l₄ : List (List String))
    (rL : List String) (k : String) (hk : k ≠ "")
    (hd : inp.sourceData.data = l₁ ++ rL :: l₄)
    (hL : sourceRowKey inp rL = k)
    (h4 : ∀ r ∈ l₄, sourceRowKey inp r ≠ k) :
    jsGet (buildSourceMap inp) k = some (mkSourceEntry inp rL) := by
  unfold buildSourceMap
  rw [hd, List.foldl_append, List.foldl_cons,
    sourceMapFold_get_of_avoid inp l₄ _ k h4,
    sourceMapStep_eq_set inp _ rL (by rw [hL]; exact hk), hL]
  exact jsGet_jsSet_self _ k _

/-- The source-pass step function only reads the headers, the key mapping
and the formula, never the source data list. -/
theorem sourceMapStep_congr_data (sh : List String) (d d2 : List (List String))
    (td : TableData) (km : KeyMapping) (rc : RecFormula) :
    sourceMapStep ⟨⟨sh, d⟩, td, km, rc⟩ = sourceMapStep ⟨⟨sh, d2⟩, td, km, rc⟩ := by
  funext m r
  rfl

/-- Replacing an earlier source row whose key is duplicated by a later
row yields the same source lookup: the earlier entry is overwritten. -/
theorem buildSourceMap_dup_overwrite (sh : List String) (td : TableData)
    (km : KeyMapping) (rc : RecFormula) (l₁ l₃ l₄ : List (List String))
    (r₁ r₁' rL : List String) (k : String) (hk : k ≠ "")
    (h1 : rowGet r₁ (jsIndexOf sh km.sourceKey) = k)
    (h1' : rowGet r₁' (jsIndexOf sh km.sourceKey) = k)
    (hL : rowGet rL (jsIndexOf sh km.sourceKey) = k) :
    buildSourceMap ⟨⟨sh, l₁ ++ r₁ :: (l₃ ++ rL :: l₄)⟩, td, km, rc⟩ =
      buildSourceMap ⟨⟨sh, l₁ ++ r₁' :: (l₃ ++ rL :: l₄)⟩, td, km, rc⟩ := by
  have hB : buildSourceMap ⟨⟨sh, l₁ ++ r₁' :: (l₃ ++ rL :: l₄)⟩, td, km, rc⟩ =
      (l₁ ++ r₁' :: (l₃ ++ rL :: l₄)).foldl
        (sourceMapStep ⟨⟨sh, l₁ ++ r₁ :: (l₃ ++ rL :: l₄)⟩, td, km, rc⟩) [] := by
    show (l₁ ++ r₁' :: (l₃ ++ rL :: l₄)).foldl
        (sourceMapStep ⟨⟨sh, l₁ ++ r₁' :: (l₃ ++ rL :: l₄)⟩, td, km, rc⟩) [] =
      (l₁ ++ r₁' :: (l₃ ++ rL :: l₄)).foldl
        (sourceMapStep ⟨⟨sh, l₁ ++ r₁ :: (l₃ ++ rL :: l₄)⟩, td, km, rc⟩) []
    rw [sourceMapStep_congr_data sh (l₁ ++ r₁' :: (l₃ ++ rL :: l₄))
      (l₁ ++ r₁ :: (l₃ ++ rL :: l₄)) td km rc]
  rw [hB]
  show (l₁ ++ r₁ :: (l₃ ++ rL :: l₄)).foldl
      (sourceMapStep ⟨⟨sh, l₁ ++ r₁ :: (l₃ ++ rL :: l₄)⟩, td, km, rc⟩) [] =
    (l₁ ++ r₁' :: (l₃ ++ rL :: l₄)).foldl
      (sourceMapStep ⟨⟨sh, l₁ ++ r₁ :: (l₃ ++ rL :: l₄)⟩, td, km, rc⟩) []
  simp only [List.foldl_append, List.foldl_cons]
  have h1a : sourceRowKey (⟨⟨sh, l₁ ++ r₁ :: (l₃ ++ rL :: l₄)⟩, td, km, rc⟩ : ReconInput) r₁ = k := h1
  have h1b : sourceRowKey (⟨⟨sh, l₁ ++ r₁ :: (l₃ ++ rL :: l₄)⟩, td, km, rc⟩ : ReconInput) r₁' = k := h1'
  have hLa : sourceRowKey (⟨⟨sh, l₁ ++ r₁ :: (l₃ ++ rL :: l₄)⟩, td, km, rc⟩ : ReconInput) rL = k := hL
  obtain ⟨a, b, ha, hb, hset⟩ := jsSet_shape k
    (l₁.foldl (sourceMapStep (⟨⟨sh, l₁ ++ r₁ :: (l₃ ++ rL :: l₄)⟩, td, km, rc⟩ : ReconInput)) [])
    (sourceMapFold_keys _ l₁ [] (by simp)).1
  rw [sourceMapStep_eq_set _ _ r₁ (by rw [h1a]; exact hk), h1a, hset,
    sourceMapStep_eq_set _ _ r₁' (by rw [h1b]; exact hk), h1b, hset]
  have hdup0 : dupShape k
      (a ++ (k, mkSourceEntry ⟨⟨sh, l₁ ++ r₁ :: (l₃ ++ rL :: l₄)⟩, td, km, rc⟩ r₁) :: b)
      (a ++ (k, mkSourceEntry ⟨⟨sh, l₁ ++ r₁ :: (l₃ ++ rL :: l₄)⟩, td, km, rc⟩ r₁') :: b) :=
    ⟨a, b, _, _, ha, hb, rfl, rfl⟩
  have hshape := sourceMapFold_dupShape
    (⟨⟨sh, l₁ ++ r₁ :: (l₃ ++ rL :: l₄)⟩, td, km, rc⟩ : ReconInput) k l₃ _ _ hdup0
  rw [sourceMapStep_eq_set _ _ rL (by rw [hLa]; exact hk), hLa,
    sourceMapStep_eq_set _ _ rL (by rw [hLa]; exact hk), hLa,
    jsSet_dupShape_self k _ _ _ hshape]

/-- The reconciliation result depends on the source data list only
through the source lookup. -/
theorem performReconciliation_congr_sourceData (sh : List String)
    (d d2 : List (List String)) (td : TableData) (km : KeyMapping) (rc : RecFormula)
    (h : buildSourceMap ⟨⟨sh, d⟩, td, km, rc⟩ = buildSourceMap ⟨⟨sh, d2⟩, td, km, rc⟩) :
    performReconciliation ⟨⟨sh, d⟩, td, km, rc⟩ =
      performReconciliation ⟨⟨sh, d2⟩, td, km, rc⟩ := by
  unfold performReconciliation
  rw [h]
  rfl

/-- C10: duplicate source keys are last-wins.  If the source data is
`l₁ ++ r₁ :: (l₃ ++ rL :: l₄)` where the earlier row `r₁` and the later
row `rL` share the non-empty key `k` and no row after `rL` carries `k`,
then (1) the source lookup at `k` holds exactly the entry built from the
last row `rL`, and (2) the entire reconciliation result is unchanged
when the earlier duplicate `r₁` is replaced by any other row `r₁'` with
the same key — so `r₁` reaches neither the matched nor the unmatched
output and never contributes to `totalSourceValue`. -/
theorem c10_duplicate_source_keys_last_wins
    (sh : List String) (td : TableData) (km : KeyMapping) (rc : RecFormula)
    (l₁ l₃ l₄ : List (List String)) (r₁ r₁' rL : List String) (k : String)
    (hk : k ≠ "")
    (h1 : rowGet r₁ (jsIndexOf sh km.sourceKey) = k)
    (h1' : rowGet r₁' (jsIndexOf sh km.sourceKey) = k)
    (hL : rowGet rL (jsIndexOf sh km.sourceKey) = k)
    (h4 : ∀ r ∈ l₄, rowGet r (jsIndexOf sh km.sourceKey) ≠ k) :
    jsGet (buildSourceMap ⟨⟨sh, l₁ ++ r₁ :: (l₃ ++ rL :: l₄)⟩, td, km, rc⟩) k =
      some (mkSourceEntry ⟨⟨sh, l₁ ++ r₁ :: (l₃ ++ rL :: l₄)⟩, td, km, rc⟩ rL) ∧
    performReconciliation ⟨⟨sh, l₁ ++ r₁ :: (l₃ ++ rL :: l₄)⟩, td, km, rc⟩ =
      performReconciliation ⟨⟨sh, l₁ ++ r₁' :: (l₃ ++ rL :: l₄)⟩, td, km, rc⟩ := by
  constructor
  · exact buildSourceMap_last_wins _ (l₁ ++ r₁ :: l₃) l₄ rL k hk (by simp) hL h4
  · exact performReconciliation_congr_sourceData sh _ _ td km rc
      (buildSourceMap_dup_overwrite sh td km rc l₁ l₃ l₄ r₁ r₁' rL k hk h1 h1' hL)

/-- C10 witness: a two-row source table with the duplicated key `dup`;
the lookup holds the second row's entry, and replacing the first row's
amount `1` by `9` leaves the whole reconciliation result unchanged. -/
theorem c10_duplicate_source_keys_last_wins_witness :
    jsGet (buildSourceMap ⟨⟨["Key", "Amt"], [["dup", "1"], ["dup", "2"]]⟩,
        ⟨["Key", "Amt"], []⟩, ⟨"Key", "Key"⟩, ⟨["Amt"], ["Amt"], "Amt"⟩⟩) "dup" =
      some (mkSourceEntry ⟨⟨["Key", "Amt"], [["dup", "1"], ["dup", "2"]]⟩,
        ⟨["Key", "Amt"], []⟩, ⟨"Key", "Key"⟩, ⟨["Amt"], ["Amt"], "Amt"⟩⟩ ["dup", "2"]) ∧
    performReconciliation ⟨⟨["Key", "Amt"], [["dup", "1"], ["dup", "2"]]⟩,
        ⟨["Key", "Amt"], []⟩, ⟨"Key", "Key"⟩, ⟨["Amt"], ["Amt"], "Amt"⟩⟩ =
      performReconciliation ⟨⟨["Key", "Amt"], [["dup", "9"], ["dup", "2"]]⟩,
        ⟨["Key", "Amt"], []⟩, ⟨"Key", "Key"⟩, ⟨["Amt"], ["Amt"], "Amt"⟩⟩ :=
  c10_duplicate_source_keys_last_wins ["Key", "Amt"] ⟨["Key", "Amt"], []⟩
    ⟨"Key", "Key"⟩ ⟨["Amt"], ["Amt"], "Amt"⟩ [] [] [] ["dup", "1"] ["dup", "9"]
    ["dup", "2"] "dup" (by decide) (by decide) (by decide) (by decide)
    (fun r hr => absurd hr (List.not_mem_nil r))

end Theorems

end CsvMatch
